import Mathlib

/-!
Shallow embedding of the `PokemonCardTrading` escrow/auction engine and the
parts of `PokemonCardToken` (ERC721 custody) that the engine relies on, from
`src/contracts/PokemonCardToken.sol`.

Addresses and wei amounts are modelled as `Nat`; the zero address is `0`.
Solidity 0.8 reverts on arithmetic overflow, so unbounded `Nat` arithmetic
agrees with the source on every execution that does not revert with an
overflow (unreachable for any realistic amount of value).  A reverted call
leaves contract storage unchanged; the embedding captures this by having
each operation return `Except.error` on revert and by `applyAct` keeping the
pre-state on error.  `block.timestamp` is passed explicitly as `now` to the
operations that read it.
-/

namespace PokemonTrading

/-- `enum ListingType` of `PokemonCardTrading`. -/
inductive ListingType where
  | FIXED_PRICE
  | AUCTION
deriving DecidableEq

/-- `struct Listing` of `PokemonCardTrading`. -/
structure Listing where
  seller : Nat
  tokenId : Nat
  price : Nat
  endTime : Nat
  highestBidder : Nat
  highestBid : Nat
  listingType : ListingType
  active : Bool
deriving DecidableEq

/-- Revert reasons of the engine's requires and of the underlying ERC721 and
Pausable/Ownable checks. -/
inductive Err where
  | paused
  | expectedPause
  | notOperator
  | zeroPrice
  | zeroDuration
  | notTokenOwner
  | alreadyListed
  | notApproved
  | notActive
  | wrongKindFixed
  | wrongKindAuction
  | auctionEnded
  | auctionNotEnded
  | insufficientPayment
  | bidTooLow
  | notSeller
  | auctionHasBids
  | noFunds
  | transferFailed
  | invalidReceiver
  | nonexistentToken
  | unauthorizedTransfer
  | incorrectOwner
  | invalidSender
deriving DecidableEq

/-- Revert message of each engine require, as written in the source. -/
def Err.message : Err → String
  | .paused => "EnforcedPause"
  | .expectedPause => "ExpectedPause"
  | .notOperator => "OwnableUnauthorizedAccount"
  | .zeroPrice => "Price must be greater than zero"
  | .zeroDuration => "Duration must be greater than zero"
  | .notTokenOwner => "You must own the card to list it"
  | .alreadyListed => "Card already has an active listing"
  | .notApproved => "Trading contract is not approved to transfer this token"
  | .notActive => "Listing is not active"
  | .wrongKindFixed => "Card is not listed for fixed price"
  | .wrongKindAuction => "Card is not listed for auction"
  | .auctionEnded => "Auction has ended"
  | .auctionNotEnded => "Auction has not ended yet"
  | .insufficientPayment => "Insufficient payment"
  | .bidTooLow => "Bid too low"
  | .notSeller => "Only the seller can cancel a listing"
  | .auctionHasBids => "Cannot cancel auction with bids"
  | .noFunds => "No funds to withdraw"
  | .transferFailed => "Transfer failed"
  | .invalidReceiver => "ERC721InvalidReceiver"
  | .nonexistentToken => "ERC721NonexistentToken"
  | .unauthorizedTransfer => "ERC721InsufficientApproval"
  | .incorrectOwner => "ERC721IncorrectOwner"
  | .invalidSender => "ERC721InvalidSender"

/-- Events emitted by the trading contract. -/
inductive Event where
  | CardListed (tokenId price : Nat) (listingType : ListingType) (endTime seller : Nat)
  | AuctionBid (tokenId bid bidder : Nat)
  | CardSold (tokenId price seller buyer : Nat)
  | AuctionEnded (tokenId price seller winner : Nat)
  | CardListingCancelled (tokenId seller : Nat)
  | WithdrawalMade (recipient amount : Nat)
deriving DecidableEq

/-- The ERC721 custody state of `PokemonCardToken` as used by the engine:
token ownership (`0` = nonexistent), per-token approval, operator approval,
the mint counter and the token contract's `Ownable` owner. -/
structure Registry where
  admin : Nat
  counter : Nat
  tokenOwner : Nat → Nat
  tokenApproved : Nat → Nat
  operatorAll : Nat → Nat → Bool

/-- The trading contract's own address (`address(this)`); some fixed nonzero
address. -/
def engineAddr : Nat := 1

/-- `ERC721.transferFrom`: checks the receiver, token existence, the caller's
authorization and that `fromA` owns the token; then moves ownership and
clears the per-token approval (as OpenZeppelin's `_update` does). -/
def Registry.transferFrom (r : Registry) (caller fromA toA tokenId : Nat) :
    Except Err Registry :=
  if toA = 0 then .error .invalidReceiver
  else if r.tokenOwner tokenId = 0 then .error .nonexistentToken
  else if ¬(caller = r.tokenOwner tokenId ∨
            r.operatorAll (r.tokenOwner tokenId) caller = true ∨
            r.tokenApproved tokenId = caller) then .error .unauthorizedTransfer
  else if r.tokenOwner tokenId ≠ fromA then .error .incorrectOwner
  else .ok { r with tokenOwner := Function.update r.tokenOwner tokenId toA,
                    tokenApproved := Function.update r.tokenApproved tokenId 0 }

/-- `PokemonCardToken.mintPokemonCard` (the card metadata fields are dropped:
no claim concerns them): only the token-contract owner may mint, the fresh
token id is the current counter. -/
def Registry.mint (r : Registry) (caller toA : Nat) : Except Err Registry :=
  if caller ≠ r.admin then .error .notOperator
  else if toA = 0 then .error .invalidReceiver
  else if r.tokenOwner r.counter ≠ 0 then .error .invalidSender
  else .ok { r with counter := r.counter + 1,
                    tokenOwner := Function.update r.tokenOwner r.counter toA }

/-- `ERC721.approve`. -/
def Registry.approve (r : Registry) (caller toA tokenId : Nat) :
    Except Err Registry :=
  if r.tokenOwner tokenId = 0 then .error .nonexistentToken
  else if ¬(caller = r.tokenOwner tokenId ∨
            r.operatorAll (r.tokenOwner tokenId) caller = true) then
    .error .unauthorizedTransfer
  else .ok { r with tokenApproved := Function.update r.tokenApproved tokenId toA }

/-- `ERC721.setApprovalForAll`. -/
def Registry.setApprovalForAll (r : Registry) (caller op : Nat) (approved : Bool) :
    Except Err Registry :=
  if op = 0 then .error .invalidReceiver
  else .ok { r with operatorAll := fun o a =>
    if o = caller ∧ a = op then approved else r.operatorAll o a }

/-- Default value of `mapping(uint256 => Listing)`: what `listings[id]` reads
before any listing was ever created for `id`. -/
def emptyListing : Listing :=
  { seller := 0, tokenId := 0, price := 0, endTime := 0,
    highestBidder := 0, highestBid := 0, listingType := .FIXED_PRICE,
    active := false }

/-- Storage of the trading contract plus the custody registry it calls.
`paidIn` and `paidOut` are history totals (value accepted through the two
payable entry points and value sent out by `withdraw`), recorded so that
conservation can be stated; they are not contract storage. -/
structure TradingState where
  reg : Registry
  listings : Nat → Listing
  pendingWithdrawals : Nat → Nat
  paused : Bool
  owner : Nat
  events : List Event
  paidIn : Nat
  paidOut : Nat

/-- `pendingWithdrawals[a] += amt`. -/
def credit (pw : Nat → Nat) (a amt : Nat) : Nat → Nat :=
  Function.update pw a (pw a + amt)

/-- `listCardForSale(tokenId, price)` called by `caller`. -/
def listCardForSale (s : TradingState) (caller tokenId price : Nat) :
    Except Err TradingState :=
  if s.paused then .error .paused
  else if price = 0 then .error .zeroPrice
  else if s.reg.tokenOwner tokenId = 0 then .error .nonexistentToken
  else if s.reg.tokenOwner tokenId ≠ caller then .error .notTokenOwner
  else if (s.listings tokenId).active then .error .alreadyListed
  else if ¬(s.reg.tokenApproved tokenId = engineAddr ∨
            s.reg.operatorAll caller engineAddr = true) then .error .notApproved
  else
    match s.reg.transferFrom engineAddr caller engineAddr tokenId with
    | .error e => .error e
    | .ok r =>
      .ok { s with reg := r,
                   listings := Function.update s.listings tokenId
                     { seller := caller, tokenId := tokenId, price := price,
                       endTime := 0, highestBidder := 0, highestBid := 0,
                       listingType := .FIXED_PRICE, active := true },
                   events := s.events ++
                     [.CardListed tokenId price .FIXED_PRICE 0 caller] }

/-- `listCardForAuction(tokenId, startingPrice, duration)` at time `now`. -/
def listCardForAuction (s : TradingState)
    (caller tokenId startingPrice duration now : Nat) :
    Except Err TradingState :=
  if s.paused then .error .paused
  else if startingPrice = 0 then .error .zeroPrice
  else if duration = 0 then .error .zeroDuration
  else if s.reg.tokenOwner tokenId = 0 then .error .nonexistentToken
  else if s.reg.tokenOwner tokenId ≠ caller then .error .notTokenOwner
  else if (s.listings tokenId).active then .error .alreadyListed
  else if ¬(s.reg.tokenApproved tokenId = engineAddr ∨
            s.reg.operatorAll caller engineAddr = true) then .error .notApproved
  else
    match s.reg.transferFrom engineAddr caller engineAddr tokenId with
    | .error e => .error e
    | .ok r =>
      .ok { s with reg := r,
                   listings := Function.update s.listings tokenId
                     { seller := caller, tokenId := tokenId,
                       price := startingPrice, endTime := now + duration,
                       highestBidder := 0, highestBid := 0,
                       listingType := .AUCTION, active := true },
                   events := s.events ++
                     [.CardListed tokenId startingPrice .AUCTION
                       (now + duration) caller] }

/-- `buyCard(tokenId)` called by `caller` with `msg.value = v`. -/
def buyCard (s : TradingState) (caller tokenId v : Nat) :
    Except Err TradingState :=
  if s.paused then .error .paused
  else if (s.listings tokenId).active = false then .error .notActive
  else if (s.listings tokenId).listingType ≠ .FIXED_PRICE then
    .error .wrongKindFixed
  else if v < (s.listings tokenId).price then .error .insufficientPayment
  else
    match s.reg.transferFrom engineAddr engineAddr caller tokenId with
    | .error e => .error e
    | .ok r =>
      .ok { s with reg := r,
                   listings := Function.update s.listings tokenId
                     { s.listings tokenId with active := false },
                   pendingWithdrawals :=
                     (if (s.listings tokenId).price < v then
                        credit (credit s.pendingWithdrawals
                            (s.listings tokenId).seller
                            (s.listings tokenId).price)
                          caller (v - (s.listings tokenId).price)
                      else
                        credit s.pendingWithdrawals
                          (s.listings tokenId).seller
                          (s.listings tokenId).price),
                   events := s.events ++
                     [.CardSold tokenId (s.listings tokenId).price
                       (s.listings tokenId).seller caller],
                   paidIn := s.paidIn + v }

/-- `placeBid(tokenId)` called by `caller` with `msg.value = v` at time
`now`. -/
def placeBid (s : TradingState) (caller tokenId v now : Nat) :
    Except Err TradingState :=
  if s.paused then .error .paused
  else if (s.listings tokenId).active = false then .error .notActive
  else if (s.listings tokenId).listingType ≠ .AUCTION then
    .error .wrongKindAuction
  else if ¬ now < (s.listings tokenId).endTime then .error .auctionEnded
  else if ¬((s.listings tokenId).highestBid < v ∧
            (s.listings tokenId).price ≤ v) then .error .bidTooLow
  else
    .ok { s with listings := Function.update s.listings tokenId
                   { s.listings tokenId with
                       highestBidder := caller, highestBid := v },
                 pendingWithdrawals :=
                   (if (s.listings tokenId).highestBidder ≠ 0 then
                      credit s.pendingWithdrawals
                        (s.listings tokenId).highestBidder
                        (s.listings tokenId).highestBid
                    else s.pendingWithdrawals),
                 events := s.events ++ [.AuctionBid tokenId v caller],
                 paidIn := s.paidIn + v }

/-- `endAuction(tokenId)` at time `now` (any caller). -/
def endAuction (s : TradingState) (caller tokenId now : Nat) :
    Except Err TradingState :=
  if s.paused then .error .paused
  else if (s.listings tokenId).active = false then .error .notActive
  else if (s.listings tokenId).listingType ≠ .AUCTION then
    .error .wrongKindAuction
  else if now < (s.listings tokenId).endTime then .error .auctionNotEnded
  else if (s.listings tokenId).highestBidder ≠ 0 then
    match s.reg.transferFrom engineAddr engineAddr
        (s.listings tokenId).highestBidder tokenId with
    | .error e => .error e
    | .ok r =>
      .ok { s with reg := r,
                   listings := Function.update s.listings tokenId
                     { s.listings tokenId with active := false },
                   pendingWithdrawals :=
                     credit s.pendingWithdrawals (s.listings tokenId).seller
                       (s.listings tokenId).highestBid,
                   events := s.events ++
                     [.AuctionEnded tokenId (s.listings tokenId).highestBid
                       (s.listings tokenId).seller
                       (s.listings tokenId).highestBidder] }
  else
    match s.reg.transferFrom engineAddr engineAddr
        (s.listings tokenId).seller tokenId with
    | .error e => .error e
    | .ok r =>
      .ok { s with reg := r,
                   listings := Function.update s.listings tokenId
                     { s.listings tokenId with active := false },
                   events := s.events ++
                     [.CardListingCancelled tokenId
                       (s.listings tokenId).seller] }

/-- `cancelListing(tokenId)` called by `caller`. -/
def cancelListing (s : TradingState) (caller tokenId : Nat) :
    Except Err TradingState :=
  if s.paused then .error .paused
  else if (s.listings tokenId).active = false then .error .notActive
  else if (s.listings tokenId).seller ≠ caller then .error .notSeller
  else if (s.listings tokenId).listingType = .AUCTION ∧
          (s.listings tokenId).highestBidder ≠ 0 then
    .error .auctionHasBids
  else
    match s.reg.transferFrom engineAddr engineAddr caller tokenId with
    | .error e => .error e
    | .ok r =>
      .ok { s with reg := r,
                   listings := Function.update s.listings tokenId
                     { s.listings tokenId with active := false },
                   events := s.events ++
                     [.CardListingCancelled tokenId caller] }

/-- The state the contract is in while `withdraw`'s outbound value transfer
runs: the caller's balance has already been zeroed. -/
def withdrawTransferState (s : TradingState) (caller : Nat) : TradingState :=
  { s with pendingWithdrawals := Function.update s.pendingWithdrawals caller 0 }

/-- `withdraw()` called by `caller`; `transferOk` is whether the outbound
low-level call succeeds (decided by the environment). -/
def withdraw (s : TradingState) (caller : Nat) (transferOk : Bool) :
    Except Err TradingState :=
  if s.paused then .error .paused
  else if s.pendingWithdrawals caller = 0 then .error .noFunds
  else if transferOk then
    .ok { withdrawTransferState s caller with
            events := s.events ++
              [.WithdrawalMade caller (s.pendingWithdrawals caller)],
            paidOut := s.paidOut + s.pendingWithdrawals caller }
  else .error .transferFailed

/-- `pause()`: `onlyOwner`, and `_pause` requires not already paused. -/
def pause (s : TradingState) (caller : Nat) : Except Err TradingState :=
  if caller ≠ s.owner then .error .notOperator
  else if s.paused then .error .paused
  else .ok { s with paused := true }

/-- `unpause()`: `onlyOwner`, and `_unpause` requires currently paused. -/
def unpause (s : TradingState) (caller : Nat) : Except Err TradingState :=
  if caller ≠ s.owner then .error .notOperator
  else if s.paused = false then .error .expectedPause
  else .ok { s with paused := false }

/-- One external call, with its caller, payment and timestamp as relevant. -/
inductive Act where
  | mint (caller toA : Nat)
  | approve (caller toA tokenId : Nat)
  | approveAll (caller op : Nat) (approved : Bool)
  | listSale (caller tokenId price : Nat)
  | listAuc (caller tokenId startingPrice duration now : Nat)
  | buy (caller tokenId v : Nat)
  | bid (caller tokenId v now : Nat)
  | endAuc (caller tokenId now : Nat)
  | cancel (caller tokenId : Nat)
  | wdraw (caller : Nat) (transferOk : Bool)
  | pauseAct (caller : Nat)
  | unpauseAct (caller : Nat)
deriving DecidableEq

/-- Commit the new state on success; a reverted call keeps the pre-state. -/
def settle (s : TradingState) : Except Err TradingState → TradingState
  | .ok s' => s'
  | .error _ => s

/-- Commit a registry-only call. -/
def settleReg (s : TradingState) : Except Err Registry → TradingState
  | .ok r => { s with reg := r }
  | .error _ => s

/-- Apply one external call to the state. -/
def applyAct (s : TradingState) : Act → TradingState
  | .mint c toA => settleReg s (s.reg.mint c toA)
  | .approve c toA t => settleReg s (s.reg.approve c toA t)
  | .approveAll c o ap => settleReg s (s.reg.setApprovalForAll c o ap)
  | .listSale c t p => settle s (listCardForSale s c t p)
  | .listAuc c t p d now => settle s (listCardForAuction s c t p d now)
  | .buy c t v => settle s (buyCard s c t v)
  | .bid c t v now => settle s (placeBid s c t v now)
  | .endAuc c t now => settle s (endAuction s c t now)
  | .cancel c t => settle s (cancelListing s c t)
  | .wdraw c ok => settle s (withdraw s c ok)
  | .pauseAct c => settle s (pause s c)
  | .unpauseAct c => settle s (unpause s c)

/-- Run a list of calls from a state. -/
def execTrace (s : TradingState) (as : List Act) : TradingState :=
  as.foldl applyAct s

/-- Deployment state: token contract owned by `tokenAdmin`, trading contract
owned by `operatorAddr`; no tokens, no listings, no balances, unpaused. -/
def init (tokenAdmin operatorAddr : Nat) : TradingState :=
  { reg := { admin := tokenAdmin, counter := 0, tokenOwner := fun _ => 0,
             tokenApproved := fun _ => 0, operatorAll := fun _ _ => false },
    listings := fun _ => emptyListing,
    pendingWithdrawals := fun _ => 0,
    paused := false, owner := operatorAddr, events := [],
    paidIn := 0, paidOut := 0 }

/-- The caller of a call: on Ethereum `msg.sender` is never the zero
address. -/
def Act.caller : Act → Nat
  | .mint c _ => c
  | .approve c _ _ => c
  | .approveAll c _ _ => c
  | .listSale c _ _ => c
  | .listAuc c _ _ _ _ => c
  | .buy c _ _ => c
  | .bid c _ _ _ => c
  | .endAuc c _ _ => c
  | .cancel c _ => c
  | .wdraw c _ => c
  | .pauseAct c => c
  | .unpauseAct c => c

/-- Validity of a call in the environment: the sender is a real account. -/
def ActOk (a : Act) : Prop := a.caller ≠ 0

instance (a : Act) : Decidable (ActOk a) :=
  inferInstanceAs (Decidable (a.caller ≠ 0))

/-- Does this call create a listing for item `i`? -/
def Act.listsFor (a : Act) (i : Nat) : Bool :=
  match a with
  | .listSale _ t _ => t == i
  | .listAuc _ t _ _ _ => t == i
  | _ => false

/-- Every address the call can credit or debit is below `A`, and the item it
names is below `N`. -/
def Act.below (a : Act) (A N : Nat) : Prop :=
  match a with
  | .mint c _ => c < A
  | .approve c _ _ => c < A
  | .approveAll c _ _ => c < A
  | .listSale c t _ => c < A ∧ t < N
  | .listAuc c t _ _ _ => c < A ∧ t < N
  | .buy c t _ => c < A ∧ t < N
  | .bid c t _ _ => c < A ∧ t < N
  | .endAuc c t _ => c < A ∧ t < N
  | .cancel c t => c < A ∧ t < N
  | .wdraw c _ => c < A
  | .pauseAct c => c < A
  | .unpauseAct c => c < A

instance (a : Act) (A N : Nat) : Decidable (a.below A N) :=
  match a with
  | .mint c _ => inferInstanceAs (Decidable (c < A))
  | .approve c _ _ => inferInstanceAs (Decidable (c < A))
  | .approveAll c _ _ => inferInstanceAs (Decidable (c < A))
  | .listSale c t _ => inferInstanceAs (Decidable (c < A ∧ t < N))
  | .listAuc c t _ _ _ => inferInstanceAs (Decidable (c < A ∧ t < N))
  | .buy c t _ => inferInstanceAs (Decidable (c < A ∧ t < N))
  | .bid c t _ _ => inferInstanceAs (Decidable (c < A ∧ t < N))
  | .endAuc c t _ => inferInstanceAs (Decidable (c < A ∧ t < N))
  | .cancel c t => inferInstanceAs (Decidable (c < A ∧ t < N))
  | .wdraw c _ => inferInstanceAs (Decidable (c < A))
  | .pauseAct c => inferInstanceAs (Decidable (c < A))
  | .unpauseAct c => inferInstanceAs (Decidable (c < A))

/-- Sum of the withdrawal ledger over addresses below `A`. -/
def ledgerSum (pw : Nat → Nat) (A : Nat) : Nat :=
  ∑ a ∈ Finset.range A, pw a

/-- Value escrowed in one listing: the standing highest bid of an active
auction. -/
def escrowOf (l : Listing) : Nat :=
  if l.active = true ∧ l.listingType = .AUCTION then l.highestBid else 0

/-- Total value escrowed in the listings of items below `N`. -/
def escrowSum (ls : Nat → Listing) (N : Nat) : Nat :=
  ∑ i ∈ Finset.range N, escrowOf (ls i)

/-- Inductive invariant behind conservation: balances and listings live
below the bounds, a never-bid listing has zero highest bid, and ledger plus
escrow plus value paid out equals value paid in. -/
def Conserved (s : TradingState) (A N : Nat) : Prop :=
  (∀ a, A ≤ a → s.pendingWithdrawals a = 0) ∧
  (∀ i, N ≤ i → (s.listings i).active = false) ∧
  (∀ i, (s.listings i).active = true →
    (s.listings i).seller < A ∧ (s.listings i).highestBidder < A) ∧
  (∀ i, (s.listings i).highestBidder = 0 → (s.listings i).highestBid = 0) ∧
  ledgerSum s.pendingWithdrawals A + escrowSum s.listings N + s.paidOut
    = s.paidIn

/-- `listing.active = false`: the listing with its active flag cleared. -/
def deactivate (l : Listing) : Listing :=
  { seller := l.seller, tokenId := l.tokenId, price := l.price,
    endTime := l.endTime, highestBidder := l.highestBidder,
    highestBid := l.highestBid, listingType := l.listingType,
    active := false }

/-- The listing after `placeBid` records a new highest bid. -/
def rebid (l : Listing) (b v : Nat) : Listing :=
  { seller := l.seller, tokenId := l.tokenId, price := l.price,
    endTime := l.endTime, highestBidder := b, highestBid := v,
    listingType := l.listingType, active := l.active }

/-- The listing created by `listCardForSale`. -/
def newSaleListing (c t p : Nat) : Listing :=
  { seller := c, tokenId := t, price := p, endTime := 0,
    highestBidder := 0, highestBid := 0, listingType := .FIXED_PRICE,
    active := true }

/-- The listing created by `listCardForAuction`. -/
def newAucListing (c t p e : Nat) : Listing :=
  { seller := c, tokenId := t, price := p, endTime := e,
    highestBidder := 0, highestBid := 0, listingType := .AUCTION,
    active := true }

/-- Concrete trace used by witnesses: mint and fixed-price sale with change
and withdrawal for item 0, then an auction with two bids and settlement for
item 1. -/
def wTrace : List Act :=
  [.mint 2 4, .approve 4 1 0, .listSale 4 0 100, .buy 5 0 150,
   .wdraw 4 true, .mint 2 6, .approve 6 1 1, .listAuc 6 1 50 10 0,
   .bid 7 1 60 5, .bid 8 1 80 6, .endAuc 9 1 20]

/-- A concrete state where principal 5 has an accrued balance of 100. -/
def wLedgerState : TradingState :=
  { reg := { admin := 2, counter := 0, tokenOwner := fun _ => 0,
             tokenApproved := fun _ => 0, operatorAll := fun _ _ => false },
    listings := fun _ => emptyListing,
    pendingWithdrawals := Function.update (fun _ => 0) 5 100,
    paused := false, owner := 3, events := [], paidIn := 100, paidOut := 0 }

/-- A concrete registry with token 0 held in escrow by the engine. -/
def wEscrowReg : Registry :=
  { admin := 2, counter := 1,
    tokenOwner := Function.update (fun _ => 0) 0 engineAddr,
    tokenApproved := fun _ => 0, operatorAll := fun _ _ => false }

/-- An active no-bid auction listing for item 0. -/
def wAucListing : Listing :=
  { seller := 4, tokenId := 0, price := 50, endTime := 10,
    highestBidder := 0, highestBid := 0, listingType := .AUCTION,
    active := true }

/-- The same auction after principal 7 bid 60. -/
def wAucBidListing : Listing :=
  { seller := 4, tokenId := 0, price := 50, endTime := 10,
    highestBidder := 7, highestBid := 60, listingType := .AUCTION,
    active := true }

/-- An active fixed-price listing for item 0 at price 100. -/
def wSaleListing : Listing :=
  { seller := 4, tokenId := 0, price := 100, endTime := 0,
    highestBidder := 0, highestBid := 0, listingType := .FIXED_PRICE,
    active := true }

/-- A concrete state with the no-bid auction active. -/
def wAucState : TradingState :=
  { reg := wEscrowReg,
    listings := Function.update (fun _ => emptyListing) 0 wAucListing,
    pendingWithdrawals := fun _ => 0, paused := false, owner := 3,
    events := [], paidIn := 0, paidOut := 0 }

/-- A concrete state with the bid-upon auction active. -/
def wAucBidState : TradingState :=
  { reg := wEscrowReg,
    listings := Function.update (fun _ => emptyListing) 0 wAucBidListing,
    pendingWithdrawals := fun _ => 0, paused := false, owner := 3,
    events := [], paidIn := 60, paidOut := 0 }

/-- A concrete state with the fixed-price listing active. -/
def wSaleState : TradingState :=
  { reg := wEscrowReg,
    listings := Function.update (fun _ => emptyListing) 0 wSaleListing,
    pendingWithdrawals := fun _ => 0, paused := false, owner := 3,
    events := [], paidIn := 0, paidOut := 0 }

/-- The fixed-price state with the gate engaged. -/
def wPausedState : TradingState :=
  { reg := wEscrowReg,
    listings := Function.update (fun _ => emptyListing) 0 wSaleListing,
    pendingWithdrawals := Function.update (fun _ => 0) 5 100,
    paused := true, owner := 3,
    events := [], paidIn := 100, paidOut := 0 }

/-- A concrete state where principal 4 owns item 0 and has approved the
engine, ready to list. -/
def wListReady : TradingState :=
  { reg := { admin := 2, counter := 1,
             tokenOwner := Function.update (fun _ => 0) 0 4,
             tokenApproved := Function.update (fun _ => 0) 0 engineAddr,
             operatorAll := fun _ _ => false },
    listings := fun _ => emptyListing, pendingWithdrawals := fun _ => 0,
    paused := false, owner := 3, events := [], paidIn := 0, paidOut := 0 }

/-! Helper lemmas about sums over the ledger and the listing store. -/

lemma sumRange_update (f : Nat → Nat) (A i v : Nat) (hi : i < A) :
    (∑ a ∈ Finset.range A, Function.update f i v a) + f i
      = v + ∑ a ∈ Finset.range A, f a := by
  have hmem : i ∈ Finset.range A := Finset.mem_range.mpr hi
  rw [Finset.sum_update_of_mem hmem]
  have h2 : (∑ a ∈ (Finset.range A).erase i, f a) + f i
      = ∑ a ∈ Finset.range A, f a := Finset.sum_erase_add _ _ hmem
  rw [Finset.sdiff_singleton_eq_erase]
  omega

lemma ledgerSum_credit (pw : Nat → Nat) {A a : Nat} (amt : Nat) (h : a < A) :
    ledgerSum (credit pw a amt) A = ledgerSum pw A + amt := by
  unfold ledgerSum credit
  have := sumRange_update pw A a (pw a + amt) h
  omega

lemma ledgerSum_zeroAt (pw : Nat → Nat) {A a : Nat} (h : a < A) :
    ledgerSum (Function.update pw a 0) A + pw a = ledgerSum pw A := by
  unfold ledgerSum
  have := sumRange_update pw A a 0 h
  omega

lemma escrowSum_update (ls : Nat → Listing) {N i : Nat} (l : Listing)
    (h : i < N) :
    escrowSum (Function.update ls i l) N + escrowOf (ls i)
      = escrowOf l + escrowSum ls N := by
  have hmem : i ∈ Finset.range N := Finset.mem_range.mpr h
  have h1 : escrowSum (Function.update ls i l) N
      = escrowOf l + ∑ j ∈ (Finset.range N).erase i, escrowOf (ls j) := by
    unfold escrowSum
    rw [← Finset.add_sum_erase _ _ hmem]
    congr 1
    · rw [Function.update_same]
    · refine Finset.sum_congr rfl fun j hj => ?_
      rw [Function.update_noteq (Finset.ne_of_mem_erase hj)]
  have h2 : escrowSum ls N
      = escrowOf (ls i) + ∑ j ∈ (Finset.range N).erase i, escrowOf (ls j) := by
    unfold escrowSum
    rw [← Finset.add_sum_erase _ _ hmem]
  omega

lemma credit_apply (pw : Nat → Nat) (a amt x : Nat) :
    credit pw a amt x = pw x + (if x = a then amt else 0) := by
  unfold credit
  by_cases hx : x = a
  · subst hx; rw [Function.update_same]; simp
  · rw [Function.update_noteq hx]; simp [hx]

lemma credit_beyond {pw : Nat → Nat} {A a : Nat} (amt : Nat) (ha : a < A)
    (h : ∀ x, A ≤ x → pw x = 0) : ∀ x, A ≤ x → credit pw a amt x = 0 := by
  intro x hx
  unfold credit
  rw [Function.update_noteq (by omega)]
  exact h x hx

lemma settle_error {s : TradingState} {e : Err}
    {r : Except Err TradingState} (h : r = .error e) : settle s r = s := by
  subst h; rfl

/-- A Bool that is not false is true. -/
lemma bool_not_false {b : Bool} (h : ¬ b = false) : b = true := by
  cases b
  · exact absurd rfl h
  · rfl

lemma escrowOf_deactivate (l : Listing) : escrowOf (deactivate l) = 0 := by
  simp [escrowOf, deactivate]

/-- A Bool that is not true is false. -/
lemma bool_not_true {b : Bool} (h : ¬ b = true) : b = false := by
  cases b
  · rfl
  · exact absurd rfl h

lemma listCardForSale_ok {s : TradingState} {c t p : Nat} {s' : TradingState}
    (h : listCardForSale s c t p = .ok s') :
    s.paused = false ∧ p ≠ 0 ∧ s.reg.tokenOwner t = c ∧ c ≠ 0 ∧
    (s.listings t).active = false ∧
    ∃ r, s.reg.transferFrom engineAddr c engineAddr t = .ok r ∧
      s' = { s with reg := r,
                    listings := Function.update s.listings t
                      (newSaleListing c t p),
                    events := s.events ++
                      [.CardListed t p .FIXED_PRICE 0 c] } := by
  by_cases hp : s.paused = true
  · rw [show listCardForSale s c t p = .error .paused by
      simp [listCardForSale, hp]] at h
    exact Except.noConfusion h
  by_cases hz : p = 0
  · rw [show listCardForSale s c t p = .error .zeroPrice by
      simp [listCardForSale, hp, hz]] at h
    exact Except.noConfusion h
  by_cases ho0 : s.reg.tokenOwner t = 0
  · rw [show listCardForSale s c t p = .error .nonexistentToken by
      simp [listCardForSale, hp, hz, ho0]] at h
    exact Except.noConfusion h
  by_cases hoc : s.reg.tokenOwner t = c
  case neg =>
    rw [show listCardForSale s c t p = .error .notTokenOwner by
      simp [listCardForSale, hp, hz, ho0, hoc]] at h
    exact Except.noConfusion h
  have hc0 : c ≠ 0 := by intro h0; exact ho0 (h0 ▸ hoc)
  by_cases hact : (s.listings t).active = true
  · rw [show listCardForSale s c t p = .error .alreadyListed by
      simp [listCardForSale, hp, hz, ho0, hoc, hc0, hact]] at h
    exact Except.noConfusion h
  by_cases happr : (s.reg.tokenApproved t = engineAddr ∨
      s.reg.operatorAll c engineAddr = true)
  case neg =>
    rw [show listCardForSale s c t p = .error .notApproved by
      simp [listCardForSale, hp, hz, ho0, hoc, hc0, hact, happr]] at h
    exact Except.noConfusion h
  cases htf : s.reg.transferFrom engineAddr c engineAddr t with
  | error e =>
    rw [show listCardForSale s c t p = .error e by
      simp [listCardForSale, hp, hz, ho0, hoc, hc0, hact, happr, htf]] at h
    exact Except.noConfusion h
  | ok r =>
    rw [show listCardForSale s c t p = .ok
      { s with reg := r,
               listings := Function.update s.listings t (newSaleListing c t p),
               events := s.events ++ [.CardListed t p .FIXED_PRICE 0 c] } by
      simp [listCardForSale, hp, hz, ho0, hoc, hc0, hact, happr, htf,
        newSaleListing]] at h
    exact ⟨bool_not_true hp, hz, hoc, hc0,
      bool_not_true hact, r, rfl, (Except.ok.inj h).symm⟩

lemma listCardForAuction_ok {s : TradingState} {c t p d now : Nat}
    {s' : TradingState} (h : listCardForAuction s c t p d now = .ok s') :
    s.paused = false ∧ p ≠ 0 ∧ d ≠ 0 ∧ s.reg.tokenOwner t = c ∧ c ≠ 0 ∧
    (s.listings t).active = false ∧
    ∃ r, s.reg.transferFrom engineAddr c engineAddr t = .ok r ∧
      s' = { s with reg := r,
                    listings := Function.update s.listings t
                      (newAucListing c t p (now + d)),
                    events := s.events ++
                      [.CardListed t p .AUCTION (now + d) c] } := by
  by_cases hp : s.paused = true
  · rw [show listCardForAuction s c t p d now = .error .paused by
      simp [listCardForAuction, hp]] at h
    exact Except.noConfusion h
  by_cases hz : p = 0
  · rw [show listCardForAuction s c t p d now = .error .zeroPrice by
      simp [listCardForAuction, hp, hz]] at h
    exact Except.noConfusion h
  by_cases hd : d = 0
  · rw [show listCardForAuction s c t p d now = .error .zeroDuration by
      simp [listCardForAuction, hp, hz, hd]] at h
    exact Except.noConfusion h
  by_cases ho0 : s.reg.tokenOwner t = 0
  · rw [show listCardForAuction s c t p d now = .error .nonexistentToken by
      simp [listCardForAuction, hp, hz, hd, ho0]] at h
    exact Except.noConfusion h
  by_cases hoc : s.reg.tokenOwner t = c
  case neg =>
    rw [show listCardForAuction s c t p d now = .error .notTokenOwner by
      simp [listCardForAuction, hp, hz, hd, ho0, hoc]] at h
    exact Except.noConfusion h
  have hc0 : c ≠ 0 := by intro h0; exact ho0 (h0 ▸ hoc)
  by_cases hact : (s.listings t).active = true
  · rw [show listCardForAuction s c t p d now = .error .alreadyListed by
      simp [listCardForAuction, hp, hz, hd, ho0, hoc, hc0, hact]] at h
    exact Except.noConfusion h
  by_cases happr : (s.reg.tokenApproved t = engineAddr ∨
      s.reg.operatorAll c engineAddr = true)
  case neg =>
    rw [show listCardForAuction s c t p d now = .error .notApproved by
      simp [listCardForAuction, hp, hz, hd, ho0, hoc, hc0, hact, happr]] at h
    exact Except.noConfusion h
  cases htf : s.reg.transferFrom engineAddr c engineAddr t with
  | error e =>
    rw [show listCardForAuction s c t p d now = .error e by
      simp [listCardForAuction, hp, hz, hd, ho0, hoc, hc0, hact, happr,
        htf]] at h
    exact Except.noConfusion h
  | ok r =>
    rw [show listCardForAuction s c t p d now = .ok
      { s with reg := r,
               listings := Function.update s.listings t
                 (newAucListing c t p (now + d)),
               events := s.events ++ [.CardListed t p .AUCTION (now + d) c] } by
      simp [listCardForAuction, hp, hz, hd, ho0, hoc, hc0, hact, happr, htf,
        newAucListing]] at h
    exact ⟨bool_not_true hp, hz, hd, hoc, hc0,
      bool_not_true hact, r, rfl, (Except.ok.inj h).symm⟩

lemma placeBid_ok {s : TradingState} {c t v now : Nat} {s' : TradingState}
    (h : placeBid s c t v now = .ok s') :
    s.paused = false ∧ (s.listings t).active = true ∧
    (s.listings t).listingType = .AUCTION ∧ now < (s.listings t).endTime ∧
    (s.listings t).highestBid < v ∧ (s.listings t).price ≤ v ∧
    s' = { s with listings := Function.update s.listings t
                    (rebid (s.listings t) c v),
                  pendingWithdrawals :=
                    (if (s.listings t).highestBidder ≠ 0 then
                       credit s.pendingWithdrawals
                         (s.listings t).highestBidder
                         (s.listings t).highestBid
                     else s.pendingWithdrawals),
                  events := s.events ++ [.AuctionBid t v c],
                  paidIn := s.paidIn + v } := by
  by_cases hp : s.paused = true
  · rw [show placeBid s c t v now = .error .paused by
      simp [placeBid, hp]] at h
    exact Except.noConfusion h
  by_cases hact : (s.listings t).active = false
  · rw [show placeBid s c t v now = .error .notActive by
      simp [placeBid, hp, hact]] at h
    exact Except.noConfusion h
  by_cases hk : (s.listings t).listingType = ListingType.AUCTION
  case neg =>
    rw [show placeBid s c t v now = .error .wrongKindAuction by
      simp [placeBid, hp, hact, hk]] at h
    exact Except.noConfusion h
  by_cases htime : now < (s.listings t).endTime
  case neg =>
    rw [show placeBid s c t v now = .error .auctionEnded by
      simp [placeBid, hp, hact, hk, htime]] at h
    exact Except.noConfusion h
  by_cases hbid : (s.listings t).highestBid < v ∧ (s.listings t).price ≤ v
  case neg =>
    rw [show placeBid s c t v now = .error .bidTooLow by
      simp [placeBid, hp, hact, hk, htime, hbid]] at h
    exact Except.noConfusion h
  rw [show placeBid s c t v now = .ok
    { s with listings := Function.update s.listings t
               (rebid (s.listings t) c v),
             pendingWithdrawals :=
               (if (s.listings t).highestBidder ≠ 0 then
                  credit s.pendingWithdrawals (s.listings t).highestBidder
                    (s.listings t).highestBid
                else s.pendingWithdrawals),
             events := s.events ++ [.AuctionBid t v c],
             paidIn := s.paidIn + v } by
    simp [placeBid, hp, hact, hk, htime, hbid, rebid]] at h
  exact ⟨bool_not_true hp, bool_not_false hact, hk, htime, hbid.1, hbid.2,
    (Except.ok.inj h).symm⟩

lemma endAuction_ok {s : TradingState} {c t now : Nat} {s' : TradingState}
    (h : endAuction s c t now = .ok s') :
    s.paused = false ∧ (s.listings t).active = true ∧
    (s.listings t).listingType = .AUCTION ∧ (s.listings t).endTime ≤ now ∧
    (((s.listings t).highestBidder ≠ 0 ∧
      ∃ r, s.reg.transferFrom engineAddr engineAddr
          (s.listings t).highestBidder t = .ok r ∧
        s' = { s with reg := r,
                      listings := Function.update s.listings t
                        (deactivate (s.listings t)),
                      pendingWithdrawals :=
                        credit s.pendingWithdrawals (s.listings t).seller
                          (s.listings t).highestBid,
                      events := s.events ++
                        [.AuctionEnded t (s.listings t).highestBid
                          (s.listings t).seller
                          (s.listings t).highestBidder] }) ∨
     ((s.listings t).highestBidder = 0 ∧
      ∃ r, s.reg.transferFrom engineAddr engineAddr
          (s.listings t).seller t = .ok r ∧
        s' = { s with reg := r,
                      listings := Function.update s.listings t
                        (deactivate (s.listings t)),
                      events := s.events ++
                        [.CardListingCancelled t (s.listings t).seller] })) := by
  by_cases hp : s.paused = true
  · rw [show endAuction s c t now = .error .paused by
      simp [endAuction, hp]] at h
    exact Except.noConfusion h
  by_cases hact : (s.listings t).active = false
  · rw [show endAuction s c t now = .error .notActive by
      simp [endAuction, hp, hact]] at h
    exact Except.noConfusion h
  by_cases hk : (s.listings t).listingType = ListingType.AUCTION
  case neg =>
    rw [show endAuction s c t now = .error .wrongKindAuction by
      simp [endAuction, hp, hact, hk]] at h
    exact Except.noConfusion h
  by_cases htime : now < (s.listings t).endTime
  · rw [show endAuction s c t now = .error .auctionNotEnded by
      simp [endAuction, hp, hact, hk, htime]] at h
    exact Except.noConfusion h
  by_cases hw : (s.listings t).highestBidder = 0
  case neg =>
    cases htf : s.reg.transferFrom engineAddr engineAddr
        (s.listings t).highestBidder t with
    | error e =>
      rw [show endAuction s c t now = .error e by
        simp [endAuction, hp, hact, hk, htime, hw, htf]] at h
      exact Except.noConfusion h
    | ok r =>
      rw [show endAuction s c t now = .ok
        { s with reg := r,
                 listings := Function.update s.listings t
                   (deactivate (s.listings t)),
                 pendingWithdrawals :=
                   credit s.pendingWithdrawals (s.listings t).seller
                     (s.listings t).highestBid,
                 events := s.events ++
                   [.AuctionEnded t (s.listings t).highestBid
                     (s.listings t).seller (s.listings t).highestBidder] } by
        simp [endAuction, hp, hact, hk, htime, hw, htf, deactivate]] at h
      exact ⟨bool_not_true hp, bool_not_false hact, hk, by omega,
        Or.inl ⟨hw, r, rfl, (Except.ok.inj h).symm⟩⟩
  · cases htf : s.reg.transferFrom engineAddr engineAddr
        (s.listings t).seller t with
    | error e =>
      rw [show endAuction s c t now = .error e by
        simp [endAuction, hp, hact, hk, htime, hw, htf]] at h
      exact Except.noConfusion h
    | ok r =>
      rw [show endAuction s c t now = .ok
        { s with reg := r,
                 listings := Function.update s.listings t
                   (deactivate (s.listings t)),
                 events := s.events ++
                   [.CardListingCancelled t (s.listings t).seller] } by
        simp [endAuction, hp, hact, hk, htime, hw, htf, deactivate]] at h
      exact ⟨bool_not_true hp, bool_not_false hact, hk, by omega,
        Or.inr ⟨hw, r, rfl, (Except.ok.inj h).symm⟩⟩

lemma cancelListing_ok {s : TradingState} {c t : Nat} {s' : TradingState}
    (h : cancelListing s c t = .ok s') :
    s.paused = false ∧ (s.listings t).active = true ∧
    (s.listings t).seller = c ∧
    ¬((s.listings t).listingType = .AUCTION ∧
      (s.listings t).highestBidder ≠ 0) ∧
    ∃ r, s.reg.transferFrom engineAddr engineAddr c t = .ok r ∧
      s' = { s with reg := r,
                    listings := Function.update s.listings t
                      (deactivate (s.listings t)),
                    events := s.events ++
                      [.CardListingCancelled t c] } := by
  by_cases hp : s.paused = true
  · rw [show cancelListing s c t = .error .paused by
      simp [cancelListing, hp]] at h
    exact Except.noConfusion h
  by_cases hact : (s.listings t).active = false
  · rw [show cancelListing s c t = .error .notActive by
      simp [cancelListing, hp, hact]] at h
    exact Except.noConfusion h
  by_cases hsell : (s.listings t).seller = c
  case neg =>
    rw [show cancelListing s c t = .error .notSeller by
      simp [cancelListing, hp, hact, hsell]] at h
    exact Except.noConfusion h
  by_cases hbids : (s.listings t).listingType = ListingType.AUCTION ∧
      (s.listings t).highestBidder ≠ 0
  · rw [show cancelListing s c t = .error .auctionHasBids by
      simp [cancelListing, hp, hact, hsell, hbids]] at h
    exact Except.noConfusion h
  cases htf : s.reg.transferFrom engineAddr engineAddr c t with
  | error e =>
    rw [show cancelListing s c t = .error e by
      simp [cancelListing, hp, hact, hsell, hbids, htf]] at h
    exact Except.noConfusion h
  | ok r =>
    rw [show cancelListing s c t = .ok
      { s with reg := r,
               listings := Function.update s.listings t
                 (deactivate (s.listings t)),
               events := s.events ++ [.CardListingCancelled t c] } by
      simp [cancelListing, hp, hact, hsell, hbids, htf, deactivate]] at h
    exact ⟨bool_not_true hp, bool_not_false hact, hsell, hbids, r, rfl,
      (Except.ok.inj h).symm⟩

lemma withdraw_ok {s : TradingState} {c : Nat} {ok : Bool}
    {s' : TradingState} (h : withdraw s c ok = .ok s') :
    s.paused = false ∧ s.pendingWithdrawals c ≠ 0 ∧ ok = true ∧
    s' = { s with pendingWithdrawals :=
                    Function.update s.pendingWithdrawals c 0,
                  events := s.events ++
                    [.WithdrawalMade c (s.pendingWithdrawals c)],
                  paidOut := s.paidOut + s.pendingWithdrawals c } := by
  by_cases hp : s.paused = true
  · rw [show withdraw s c ok = .error .paused by simp [withdraw, hp]] at h
    exact Except.noConfusion h
  by_cases hz : s.pendingWithdrawals c = 0
  · rw [show withdraw s c ok = .error .noFunds by
      simp [withdraw, hp, hz]] at h
    exact Except.noConfusion h
  cases ok with
  | false =>
    rw [show withdraw s c false = .error .transferFailed by
      simp [withdraw, hp, hz]] at h
    exact Except.noConfusion h
  | true =>
    rw [show withdraw s c true = .ok
      { s with pendingWithdrawals :=
                 Function.update s.pendingWithdrawals c 0,
               events := s.events ++
                 [.WithdrawalMade c (s.pendingWithdrawals c)],
               paidOut := s.paidOut + s.pendingWithdrawals c } by
      simp [withdraw, hp, hz, withdrawTransferState]] at h
    exact ⟨bool_not_true hp, hz, rfl, (Except.ok.inj h).symm⟩

lemma pause_ok {s : TradingState} {c : Nat} {s' : TradingState}
    (h : pause s c = .ok s') :
    c = s.owner ∧ s.paused = false ∧ s' = { s with paused := true } := by
  by_cases hc : c = s.owner
  case neg =>
    rw [show pause s c = .error .notOperator by simp [pause, hc]] at h
    exact Except.noConfusion h
  by_cases hp : s.paused = true
  · rw [show pause s c = .error .paused by simp [pause, hc, hp]] at h
    exact Except.noConfusion h
  rw [show pause s c = .ok { s with paused := true } by
    simp [pause, hc, hp]] at h
  exact ⟨hc, bool_not_true hp, (Except.ok.inj h).symm⟩

lemma unpause_ok {s : TradingState} {c : Nat} {s' : TradingState}
    (h : unpause s c = .ok s') :
    c = s.owner ∧ s.paused = true ∧ s' = { s with paused := false } := by
  by_cases hc : c = s.owner
  case neg =>
    rw [show unpause s c = .error .notOperator by simp [unpause, hc]] at h
    exact Except.noConfusion h
  by_cases hp : s.paused = false
  · rw [show unpause s c = .error .expectedPause by
      simp [unpause, hc, hp]] at h
    exact Except.noConfusion h
  rw [show unpause s c = .ok { s with paused := false } by
    simp [unpause, hc, hp]] at h
  exact ⟨hc, bool_not_false hp, (Except.ok.inj h).symm⟩

lemma buyCard_ok {s : TradingState} {c t v : Nat} {s' : TradingState}
    (h : buyCard s c t v = .ok s') :
    s.paused = false ∧ (s.listings t).active = true ∧
    (s.listings t).listingType = .FIXED_PRICE ∧ (s.listings t).price ≤ v ∧
    ∃ r, s.reg.transferFrom engineAddr engineAddr c t = .ok r ∧
      s' = { s with reg := r,
                    listings := Function.update s.listings t
                      (deactivate (s.listings t)),
                    pendingWithdrawals :=
                      (if (s.listings t).price < v then
                         credit (credit s.pendingWithdrawals
                             (s.listings t).seller (s.listings t).price)
                           c (v - (s.listings t).price)
                       else
                         credit s.pendingWithdrawals (s.listings t).seller
                           (s.listings t).price),
                    events := s.events ++
                      [.CardSold t (s.listings t).price
                        (s.listings t).seller c],
                    paidIn := s.paidIn + v } := by
  by_cases hp : s.paused = true
  · rw [show buyCard s c t v = .error .paused by simp [buyCard, hp]] at h
    exact Except.noConfusion h
  by_cases hact : (s.listings t).active = false
  · rw [show buyCard s c t v = .error .notActive by
      simp [buyCard, hp, hact]] at h
    exact Except.noConfusion h
  by_cases hk : (s.listings t).listingType = ListingType.FIXED_PRICE
  case neg =>
    rw [show buyCard s c t v = .error .wrongKindFixed by
      simp [buyCard, hp, hact, hk]] at h
    exact Except.noConfusion h
  by_cases hpv : v < (s.listings t).price
  · rw [show buyCard s c t v = .error .insufficientPayment by
      simp [buyCard, hp, hact, hk, hpv]] at h
    exact Except.noConfusion h
  cases htf : s.reg.transferFrom engineAddr engineAddr c t with
  | error e =>
    rw [show buyCard s c t v = .error e by
      simp [buyCard, hp, hact, hk, hpv, htf]] at h
    exact Except.noConfusion h
  | ok r =>
    rw [show buyCard s c t v = .ok
      { s with reg := r,
               listings := Function.update s.listings t
                 (deactivate (s.listings t)),
               pendingWithdrawals :=
                 (if (s.listings t).price < v then
                    credit (credit s.pendingWithdrawals
                        (s.listings t).seller (s.listings t).price)
                      c (v - (s.listings t).price)
                  else
                    credit s.pendingWithdrawals (s.listings t).seller
                      (s.listings t).price),
               events := s.events ++
                 [.CardSold t (s.listings t).price (s.listings t).seller c],
               paidIn := s.paidIn + v } by
      simp [buyCard, hp, hact, hk, hpv, htf, deactivate]] at h
    exact ⟨bool_not_true hp, bool_not_false hact, hk, by omega, r, rfl,
      (Except.ok.inj h).symm⟩

lemma conserved_buy {s : TradingState} {A N c t v : Nat} (hc : c < A)
    (ht : t < N) (hI : Conserved s A N) :
    Conserved (applyAct s (.buy c t v)) A N := by
  obtain ⟨h1, h2, h3, h4, h5⟩ := hI
  show Conserved (settle s (buyCard s c t v)) A N
  by_cases hp : s.paused = true
  · rw [show buyCard s c t v = .error .paused by simp [buyCard, hp]]
    exact ⟨h1, h2, h3, h4, h5⟩
  by_cases hact : (s.listings t).active = false
  · rw [show buyCard s c t v = .error .notActive by simp [buyCard, hp, hact]]
    exact ⟨h1, h2, h3, h4, h5⟩
  by_cases hk : (s.listings t).listingType = ListingType.FIXED_PRICE
  case neg =>
    rw [show buyCard s c t v = .error .wrongKindFixed by
      simp [buyCard, hp, hact, hk]]
    exact ⟨h1, h2, h3, h4, h5⟩
  by_cases hpv : v < (s.listings t).price
  · rw [show buyCard s c t v = .error .insufficientPayment by
      simp [buyCard, hp, hact, hk, hpv]]
    exact ⟨h1, h2, h3, h4, h5⟩
  have hactT : (s.listings t).active = true := bool_not_false hact
  obtain ⟨hsellA, _⟩ := h3 t hactT
  cases htf : s.reg.transferFrom engineAddr engineAddr c t with
  | error e =>
    rw [show buyCard s c t v = .error e by simp [buyCard, hp, hact, hk, hpv, htf]]
    exact ⟨h1, h2, h3, h4, h5⟩
  | ok r =>
    rw [show buyCard s c t v = .ok
      { s with reg := r,
               listings := Function.update s.listings t
                 (deactivate (s.listings t)),
               pendingWithdrawals :=
                 (if (s.listings t).price < v then
                    credit (credit s.pendingWithdrawals
                        (s.listings t).seller (s.listings t).price)
                      c (v - (s.listings t).price)
                  else
                    credit s.pendingWithdrawals (s.listings t).seller
                      (s.listings t).price),
               events := s.events ++
                 [.CardSold t (s.listings t).price (s.listings t).seller c],
               paidIn := s.paidIn + v } by
      simp [buyCard, hp, hact, hk, hpv, htf, deactivate]]
    refine ⟨?_, ?_, ?_, ?_, ?_⟩
    · intro x hx
      by_cases hv : (s.listings t).price < v <;>
        simp only [settle, hv, if_pos, if_neg, if_true, if_false]
      · exact credit_beyond _ hc
          (credit_beyond _ hsellA h1) x hx
      · exact credit_beyond _ hsellA h1 x hx
    · intro i hi
      have hit : i ≠ t := by omega
      simp only [settle, Function.update_noteq hit]
      exact h2 i hi
    · intro i hi
      by_cases hit : i = t
      · subst hit
        simp only [settle, Function.update_same] at hi
        exact absurd hi (by simp [deactivate])
      · simp only [settle, Function.update_noteq hit] at hi ⊢
        exact h3 i hi
    · intro i hi
      by_cases hit : i = t
      · subst hit
        simp only [settle, Function.update_same, deactivate] at hi ⊢
        exact h4 _ hi
      · simp only [settle, Function.update_noteq hit] at hi ⊢
        exact h4 i hi
    · have hesc : escrowSum (Function.update s.listings t
          (deactivate (s.listings t))) N + escrowOf (s.listings t)
          = escrowOf (deactivate (s.listings t)) + escrowSum s.listings N :=
        escrowSum_update s.listings _ ht
      have he0 : escrowOf (s.listings t) = 0 := by
        simp [escrowOf, hk]
      have he1 := escrowOf_deactivate (s.listings t)
      by_cases hv : (s.listings t).price < v <;>
        simp only [settle, hv, if_pos, if_neg, if_true, if_false]
      · have hl1 := ledgerSum_credit s.pendingWithdrawals
          (s.listings t).price hsellA
        have hl2 := ledgerSum_credit (credit s.pendingWithdrawals
          (s.listings t).seller (s.listings t).price)
          (v - (s.listings t).price) hc
        omega
      · have hveq : v = (s.listings t).price := by omega
        have hl1 := ledgerSum_credit s.pendingWithdrawals
          (s.listings t).price hsellA
        omega

lemma conserved_listSale {s : TradingState} {A N c t p : Nat} (hc : c < A)
    (ht : t < N) (hI : Conserved s A N) :
    Conserved (applyAct s (.listSale c t p)) A N := by
  obtain ⟨h1, h2, h3, h4, h5⟩ := hI
  show Conserved (settle s (listCardForSale s c t p)) A N
  cases hres : listCardForSale s c t p with
  | error e => exact ⟨h1, h2, h3, h4, h5⟩
  | ok s' =>
    obtain ⟨hp, hz, hoc, hc0, hact, r, htf, hs'⟩ := listCardForSale_ok hres
    subst hs'
    refine ⟨h1, ?_, ?_, ?_, ?_⟩
    · intro i hi
      have hit : i ≠ t := by omega
      simp only [settle, Function.update_noteq hit]
      exact h2 i hi
    · intro i hi
      by_cases hit : i = t
      · subst hit
        simp only [settle, Function.update_same, newSaleListing]
        exact ⟨hc, by omega⟩
      · simp only [settle, Function.update_noteq hit] at hi ⊢
        exact h3 i hi
    · intro i hi
      by_cases hit : i = t
      · subst hit
        simp only [settle, Function.update_same, newSaleListing]
      · simp only [settle, Function.update_noteq hit] at hi ⊢
        exact h4 i hi
    · have hesc := escrowSum_update s.listings (newSaleListing c t p) ht
      have heOld : escrowOf (s.listings t) = 0 := by simp [escrowOf, hact]
      have heNew : escrowOf (newSaleListing c t p) = 0 := by
        simp [escrowOf, newSaleListing]
      simp only [settle]
      omega

lemma conserved_listAuc {s : TradingState} {A N c t p d now : Nat}
    (hc : c < A) (ht : t < N) (hI : Conserved s A N) :
    Conserved (applyAct s (.listAuc c t p d now)) A N := by
  obtain ⟨h1, h2, h3, h4, h5⟩ := hI
  show Conserved (settle s (listCardForAuction s c t p d now)) A N
  cases hres : listCardForAuction s c t p d now with
  | error e => exact ⟨h1, h2, h3, h4, h5⟩
  | ok s' =>
    obtain ⟨hp, hz, hd, hoc, hc0, hact, r, htf, hs'⟩ :=
      listCardForAuction_ok hres
    subst hs'
    refine ⟨h1, ?_, ?_, ?_, ?_⟩
    · intro i hi
      have hit : i ≠ t := by omega
      simp only [settle, Function.update_noteq hit]
      exact h2 i hi
    · intro i hi
      by_cases hit : i = t
      · subst hit
        simp only [settle, Function.update_same, newAucListing]
        exact ⟨hc, by omega⟩
      · simp only [settle, Function.update_noteq hit] at hi ⊢
        exact h3 i hi
    · intro i hi
      by_cases hit : i = t
      · subst hit
        simp only [settle, Function.update_same, newAucListing]
      · simp only [settle, Function.update_noteq hit] at hi ⊢
        exact h4 i hi
    · have hesc := escrowSum_update s.listings (newAucListing c t p (now + d)) ht
      have heOld : escrowOf (s.listings t) = 0 := by simp [escrowOf, hact]
      have heNew : escrowOf (newAucListing c t p (now + d)) = 0 := by
        simp [escrowOf, newAucListing]
      simp only [settle]
      omega

lemma conserved_bid {s : TradingState} {A N c t v now : Nat} (hc : c < A)
    (ht : t < N) (hc0 : c ≠ 0) (hI : Conserved s A N) :
    Conserved (applyAct s (.bid c t v now)) A N := by
  obtain ⟨h1, h2, h3, h4, h5⟩ := hI
  show Conserved (settle s (placeBid s c t v now)) A N
  cases hres : placeBid s c t v now with
  | error e => exact ⟨h1, h2, h3, h4, h5⟩
  | ok s' =>
    obtain ⟨hp, hact, hk, htime, hlt, hle, hs'⟩ := placeBid_ok hres
    subst hs'
    obtain ⟨hsellA, hbidA⟩ := h3 t hact
    have hesc := escrowSum_update s.listings (rebid (s.listings t) c v) ht
    have heOld : escrowOf (s.listings t) = (s.listings t).highestBid := by
      simp [escrowOf, hact, hk]
    have heNew : escrowOf (rebid (s.listings t) c v) = v := by
      simp [escrowOf, rebid, hact, hk]
    by_cases hb0 : (s.listings t).highestBidder = 0
    · have hbid0 := h4 t hb0
      rw [show (if (s.listings t).highestBidder ≠ 0 then
            credit s.pendingWithdrawals (s.listings t).highestBidder
              (s.listings t).highestBid
          else s.pendingWithdrawals) = s.pendingWithdrawals from
        if_neg (by simp [hb0])]
      refine ⟨h1, ?_, ?_, ?_, ?_⟩
      · intro i hi
        have hit : i ≠ t := by omega
        simp only [settle, Function.update_noteq hit]
        exact h2 i hi
      · intro i hi
        by_cases hit : i = t
        · subst hit
          simp only [settle, Function.update_same, rebid]
          exact ⟨hsellA, hc⟩
        · simp only [settle, Function.update_noteq hit] at hi ⊢
          exact h3 i hi
      · intro i hi
        by_cases hit : i = t
        · subst hit
          simp only [settle, Function.update_same, rebid] at hi
          exact absurd hi hc0
        · simp only [settle, Function.update_noteq hit] at hi ⊢
          exact h4 i hi
      · simp only [settle]
        omega
    · rw [show (if (s.listings t).highestBidder ≠ 0 then
            credit s.pendingWithdrawals (s.listings t).highestBidder
              (s.listings t).highestBid
          else s.pendingWithdrawals) =
          credit s.pendingWithdrawals (s.listings t).highestBidder
            (s.listings t).highestBid from if_pos hb0]
      have hl := ledgerSum_credit s.pendingWithdrawals
        (s.listings t).highestBid hbidA
      refine ⟨?_, ?_, ?_, ?_, ?_⟩
      · intro x hx
        exact credit_beyond _ hbidA h1 x hx
      · intro i hi
        have hit : i ≠ t := by omega
        simp only [settle, Function.update_noteq hit]
        exact h2 i hi
      · intro i hi
        by_cases hit : i = t
        · subst hit
          simp only [settle, Function.update_same, rebid]
          exact ⟨hsellA, hc⟩
        · simp only [settle, Function.update_noteq hit] at hi ⊢
          exact h3 i hi
      · intro i hi
        by_cases hit : i = t
        · subst hit
          simp only [settle, Function.update_same, rebid] at hi
          exact absurd hi hc0
        · simp only [settle, Function.update_noteq hit] at hi ⊢
          exact h4 i hi
      · simp only [settle]
        omega

lemma conserved_endAuc {s : TradingState} {A N c t now : Nat}
    (ht : t < N) (hI : Conserved s A N) :
    Conserved (applyAct s (.endAuc c t now)) A N := by
  obtain ⟨h1, h2, h3, h4, h5⟩ := hI
  show Conserved (settle s (endAuction s c t now)) A N
  cases hres : endAuction s c t now with
  | error e => exact ⟨h1, h2, h3, h4, h5⟩
  | ok s' =>
    obtain ⟨hp, hact, hk, htime, hbr⟩ := endAuction_ok hres
    obtain ⟨hsellA, hbidA⟩ := h3 t hact
    have hesc := escrowSum_update s.listings (deactivate (s.listings t)) ht
    have heNew := escrowOf_deactivate (s.listings t)
    have heOld : escrowOf (s.listings t) = (s.listings t).highestBid := by
      simp [escrowOf, hact, hk]
    cases hbr with
    | inl hwin =>
      obtain ⟨hw, r, htf, hs'⟩ := hwin
      subst hs'
      have hl := ledgerSum_credit s.pendingWithdrawals
        (s.listings t).highestBid hsellA
      refine ⟨?_, ?_, ?_, ?_, ?_⟩
      · intro x hx
        exact credit_beyond _ hsellA h1 x hx
      · intro i hi
        have hit : i ≠ t := by omega
        simp only [settle, Function.update_noteq hit]
        exact h2 i hi
      · intro i hi
        by_cases hit : i = t
        · subst hit
          simp only [settle, Function.update_same, deactivate] at hi
          exact absurd hi (by simp)
        · simp only [settle, Function.update_noteq hit] at hi ⊢
          exact h3 i hi
      · intro i hi
        by_cases hit : i = t
        · subst hit
          simp only [settle, Function.update_same, deactivate] at hi ⊢
          exact h4 _ hi
        · simp only [settle, Function.update_noteq hit] at hi ⊢
          exact h4 i hi
      · simp only [settle]
        omega
    | inr hnob =>
      obtain ⟨hw, r, htf, hs'⟩ := hnob
      subst hs'
      have hbid0 := h4 t hw
      refine ⟨h1, ?_, ?_, ?_, ?_⟩
      · intro i hi
        have hit : i ≠ t := by omega
        simp only [settle, Function.update_noteq hit]
        exact h2 i hi
      · intro i hi
        by_cases hit : i = t
        · subst hit
          simp only [settle, Function.update_same, deactivate] at hi
          exact absurd hi (by simp)
        · simp only [settle, Function.update_noteq hit] at hi ⊢
          exact h3 i hi
      · intro i hi
        by_cases hit : i = t
        · subst hit
          simp only [settle, Function.update_same, deactivate] at hi ⊢
          exact h4 _ hi
        · simp only [settle, Function.update_noteq hit] at hi ⊢
          exact h4 i hi
      · simp only [settle]
        omega

lemma conserved_cancel {s : TradingState} {A N c t : Nat}
    (ht : t < N) (hI : Conserved s A N) :
    Conserved (applyAct s (.cancel c t)) A N := by
  obtain ⟨h1, h2, h3, h4, h5⟩ := hI
  show Conserved (settle s (cancelListing s c t)) A N
  cases hres : cancelListing s c t with
  | error e => exact ⟨h1, h2, h3, h4, h5⟩
  | ok s' =>
    obtain ⟨hp, hact, hsell, hnb, r, htf, hs'⟩ := cancelListing_ok hres
    subst hs'
    have hesc := escrowSum_update s.listings (deactivate (s.listings t)) ht
    have heNew := escrowOf_deactivate (s.listings t)
    have heOld : escrowOf (s.listings t) = 0 := by
      by_cases hk : (s.listings t).listingType = ListingType.AUCTION
      · have hb0 : (s.listings t).highestBidder = 0 := by
          by_contra hb
          exact hnb ⟨hk, hb⟩
        have := h4 t hb0
        simp [escrowOf, this]
      · simp [escrowOf, hk]
    refine ⟨h1, ?_, ?_, ?_, ?_⟩
    · intro i hi
      have hit : i ≠ t := by omega
      simp only [settle, Function.update_noteq hit]
      exact h2 i hi
    · intro i hi
      by_cases hit : i = t
      · subst hit
        simp only [settle, Function.update_same, deactivate] at hi
        exact absurd hi (by simp)
      · simp only [settle, Function.update_noteq hit] at hi ⊢
        exact h3 i hi
    · intro i hi
      by_cases hit : i = t
      · subst hit
        simp only [settle, Function.update_same, deactivate] at hi ⊢
        exact h4 _ hi
      · simp only [settle, Function.update_noteq hit] at hi ⊢
        exact h4 i hi
    · simp only [settle]
      omega

lemma conserved_wdraw {s : TradingState} {A N c : Nat} {ok : Bool}
    (hc : c < A) (hI : Conserved s A N) :
    Conserved (applyAct s (.wdraw c ok)) A N := by
  obtain ⟨h1, h2, h3, h4, h5⟩ := hI
  show Conserved (settle s (withdraw s c ok)) A N
  cases hres : withdraw s c ok with
  | error e => exact ⟨h1, h2, h3, h4, h5⟩
  | ok s' =>
    obtain ⟨hp, hz, hok, hs'⟩ := withdraw_ok hres
    subst hs'
    have hl := ledgerSum_zeroAt s.pendingWithdrawals hc
    refine ⟨?_, h2, h3, h4, ?_⟩
    · intro x hx
      show Function.update s.pendingWithdrawals c 0 x = 0
      rw [Function.update_noteq (by omega)]
      exact h1 x hx
    · simp only [settle]
      omega

/-- One valid call preserves the conservation invariant. -/
lemma conserved_step {s : TradingState} {A N : Nat} {a : Act}
    (hok : ActOk a) (hb : a.below A N) (hI : Conserved s A N) :
    Conserved (applyAct s a) A N := by
  cases a with
  | mint c toA =>
    show Conserved (settleReg s (s.reg.mint c toA)) A N
    cases s.reg.mint c toA with
    | error e => exact hI
    | ok r => exact hI
  | approve c toA t =>
    show Conserved (settleReg s (s.reg.approve c toA t)) A N
    cases s.reg.approve c toA t with
    | error e => exact hI
    | ok r => exact hI
  | approveAll c o ap =>
    show Conserved (settleReg s (s.reg.setApprovalForAll c o ap)) A N
    cases s.reg.setApprovalForAll c o ap with
    | error e => exact hI
    | ok r => exact hI
  | listSale c t p => exact conserved_listSale hb.1 hb.2 hI
  | listAuc c t p d now => exact conserved_listAuc hb.1 hb.2 hI
  | buy c t v => exact conserved_buy hb.1 hb.2 hI
  | bid c t v now => exact conserved_bid hb.1 hb.2 hok hI
  | endAuc c t now => exact conserved_endAuc hb.2 hI
  | cancel c t => exact conserved_cancel hb.2 hI
  | wdraw c ok => exact conserved_wdraw hb hI
  | pauseAct c =>
    show Conserved (settle s (pause s c)) A N
    cases hres : pause s c with
    | error e => exact hI
    | ok s' =>
      obtain ⟨_, _, hs'⟩ := pause_ok hres
      subst hs'
      exact hI
  | unpauseAct c =>
    show Conserved (settle s (unpause s c)) A N
    cases hres : unpause s c with
    | error e => exact hI
    | ok s' =>
      obtain ⟨_, _, hs'⟩ := unpause_ok hres
      subst hs'
      exact hI

/-- The deployment state is conserved. -/
lemma conserved_init (ta ow A N : Nat) : Conserved (init ta ow) A N := by
  refine ⟨fun a _ => rfl, fun i _ => rfl, ?_, fun i _ => rfl, ?_⟩
  · intro i hi
    exact absurd hi (by simp [init, emptyListing])
  · simp [init, ledgerSum, escrowSum, escrowOf, emptyListing]

/-- A valid trace preserves the conservation invariant. -/
lemma conserved_trace {A N : Nat} (as : List Act)
    (h : ∀ a ∈ as, ActOk a ∧ a.below A N) :
    ∀ s, Conserved s A N → Conserved (execTrace s as) A N := by
  induction as with
  | nil => exact fun s hs => hs
  | cons a as ih =>
    intro s hs
    have ha := h a (List.mem_cons_self a as)
    exact ih (fun x hx => h x (List.mem_cons_of_mem _ hx)) _
      (conserved_step ha.1 ha.2 hs)

/-- C2: in every reachable state with participants below `A` and items below
`N`, the ledger total plus the value escrowed in active auctions equals the
total ever paid in through `buyCard` and `placeBid` minus the total paid out
through `withdraw`. -/
theorem value_conservation (ta ow : Nat) (as : List Act) (A N : Nat)
    (h : ∀ a ∈ as, ActOk a ∧ a.below A N) :
    ledgerSum (execTrace (init ta ow) as).pendingWithdrawals A
      + escrowSum (execTrace (init ta ow) as).listings N
      = (execTrace (init ta ow) as).paidIn
        - (execTrace (init ta ow) as).paidOut
    ∧ (execTrace (init ta ow) as).paidOut
        ≤ (execTrace (init ta ow) as).paidIn := by
  obtain ⟨-, -, -, -, h5⟩ :=
    conserved_trace as h (init ta ow) (conserved_init ta ow A N)
  omega

/-- C1: `withdraw` rejects a zero balance; otherwise the caller's ledger
entry is zeroed before the outbound transfer runs, so the state seen during
the transfer has a zero balance for the caller and a nested `withdraw` by
the same principal is rejected; if the transfer fails the whole call reverts
and the pre-call state, balance included, is kept. -/
theorem withdraw_spec (s : TradingState) (c : Nat) (hp : s.paused = false) :
    (s.pendingWithdrawals c = 0 →
      ∀ ok, withdraw s c ok = .error .noFunds) ∧
    (s.pendingWithdrawals c ≠ 0 →
      (withdrawTransferState s c).pendingWithdrawals c = 0 ∧
      (∀ ok, withdraw (withdrawTransferState s c) c ok = .error .noFunds) ∧
      withdraw s c false = .error .transferFailed ∧
      applyAct s (.wdraw c false) = s ∧
      ∃ s', withdraw s c true = .ok s' ∧
        s'.pendingWithdrawals c = 0 ∧
        (∀ x, x ≠ c → s'.pendingWithdrawals x = s.pendingWithdrawals x) ∧
        s'.paidOut = s.paidOut + s.pendingWithdrawals c ∧
        s'.events = s.events ++ [.WithdrawalMade c (s.pendingWithdrawals c)]) := by
  constructor
  · intro hz ok
    simp [withdraw, hp, hz]
  · intro hnz
    have hmid : (withdrawTransferState s c).pendingWithdrawals c = 0 := by
      simp [withdrawTransferState]
    refine ⟨hmid, ?_, ?_, ?_, ?_⟩
    · intro ok
      have hpm : (withdrawTransferState s c).paused = false := hp
      simp [withdraw, hpm, hmid]
    · simp [withdraw, hp, hnz]
    · show settle s (withdraw s c false) = s
      rw [show withdraw s c false = .error .transferFailed by
        simp [withdraw, hp, hnz]]
      rfl
    · have hok : withdraw s c true = .ok
          { s with
              pendingWithdrawals := Function.update s.pendingWithdrawals c 0,
              events := s.events ++
                [.WithdrawalMade c (s.pendingWithdrawals c)],
              paidOut := s.paidOut + s.pendingWithdrawals c } := by
        simp [withdraw, hp, hnz, withdrawTransferState]
      exact ⟨_, hok, by simp,
        fun x hx => by simp [Function.update_noteq hx], rfl, rfl⟩

/-- No ERC721 transfer failure is reported as the gate error. -/
lemma transferFrom_not_paused {r : Registry} {caller fromA toA t : Nat}
    {e : Err} (h : Registry.transferFrom r caller fromA toA t = .error e) :
    e ≠ .paused := by
  unfold Registry.transferFrom at h
  split at h
  · injection h with h'
    subst h'
    decide
  split at h
  · injection h with h'
    subst h'
    decide
  split at h
  · injection h with h'
    subst h'
    decide
  split at h
  · injection h with h'
    subst h'
    decide
  exact Except.noConfusion h

lemma listCardForSale_not_paused {s : TradingState} {c t p : Nat}
    (hp : s.paused = false) : listCardForSale s c t p ≠ .error .paused := by
  intro h
  unfold listCardForSale at h
  rw [hp] at h
  simp only [Bool.false_eq_true, if_false] at h
  repeat' split at h
  all_goals
    first
      | exact Except.noConfusion h
      | exact absurd (Except.error.inj h) (by decide)
      | (rename_i e heq
         exact absurd (Except.error.inj h) (transferFrom_not_paused heq))

lemma listCardForAuction_not_paused {s : TradingState} {c t p d now : Nat}
    (hp : s.paused = false) :
    listCardForAuction s c t p d now ≠ .error .paused := by
  intro h
  unfold listCardForAuction at h
  rw [hp] at h
  simp only [Bool.false_eq_true, if_false] at h
  repeat' split at h
  all_goals
    first
      | exact Except.noConfusion h
      | exact absurd (Except.error.inj h) (by decide)
      | (rename_i e heq
         exact absurd (Except.error.inj h) (transferFrom_not_paused heq))

lemma buyCard_not_paused {s : TradingState} {c t v : Nat}
    (hp : s.paused = false) : buyCard s c t v ≠ .error .paused := by
  intro h
  unfold buyCard at h
  rw [hp] at h
  simp only [Bool.false_eq_true, if_false] at h
  repeat' split at h
  all_goals
    first
      | exact Except.noConfusion h
      | exact absurd (Except.error.inj h) (by decide)
      | (rename_i e heq
         exact absurd (Except.error.inj h) (transferFrom_not_paused heq))

lemma placeBid_not_paused {s : TradingState} {c t v now : Nat}
    (hp : s.paused = false) : placeBid s c t v now ≠ .error .paused := by
  intro h
  unfold placeBid at h
  rw [hp] at h
  simp only [Bool.false_eq_true, if_false] at h
  repeat' split at h
  all_goals
    first
      | exact Except.noConfusion h
      | exact absurd (Except.error.inj h) (by decide)

lemma endAuction_not_paused {s : TradingState} {c t now : Nat}
    (hp : s.paused = false) : endAuction s c t now ≠ .error .paused := by
  intro h
  unfold endAuction at h
  rw [hp] at h
  simp only [Bool.false_eq_true, if_false] at h
  repeat' split at h
  all_goals
    first
      | exact Except.noConfusion h
      | exact absurd (Except.error.inj h) (by decide)
      | (rename_i e heq
         exact absurd (Except.error.inj h) (transferFrom_not_paused heq))

lemma cancelListing_not_paused {s : TradingState} {c t : Nat}
    (hp : s.paused = false) : cancelListing s c t ≠ .error .paused := by
  intro h
  unfold cancelListing at h
  rw [hp] at h
  simp only [Bool.false_eq_true, if_false] at h
  repeat' split at h
  all_goals
    first
      | exact Except.noConfusion h
      | exact absurd (Except.error.inj h) (by decide)
      | (rename_i e heq
         exact absurd (Except.error.inj h) (transferFrom_not_paused heq))

lemma withdraw_not_paused {s : TradingState} {c : Nat} {ok : Bool}
    (hp : s.paused = false) : withdraw s c ok ≠ .error .paused := by
  intro h
  unfold withdraw at h
  rw [hp] at h
  simp only [Bool.false_eq_true, if_false] at h
  repeat' split at h
  all_goals
    first
      | exact Except.noConfusion h
      | exact absurd (Except.error.inj h) (by decide)

/-- C3: while paused, every state-mutating operation (withdraw included)
fails with the gate error regardless of any other precondition, and leaves
the state unchanged; while unpaused, no operation ever fails with the gate
error. -/
theorem pause_gate_spec (s : TradingState) (c t p d v now : Nat) (ok : Bool) :
    (s.paused = true →
      listCardForSale s c t p = .error .paused ∧
      listCardForAuction s c t p d now = .error .paused ∧
      buyCard s c t v = .error .paused ∧
      placeBid s c t v now = .error .paused ∧
      endAuction s c t now = .error .paused ∧
      cancelListing s c t = .error .paused ∧
      withdraw s c ok = .error .paused ∧
      applyAct s (.listSale c t p) = s ∧
      applyAct s (.listAuc c t p d now) = s ∧
      applyAct s (.buy c t v) = s ∧
      applyAct s (.bid c t v now) = s ∧
      applyAct s (.endAuc c t now) = s ∧
      applyAct s (.cancel c t) = s ∧
      applyAct s (.wdraw c ok) = s) ∧
    (s.paused = false →
      listCardForSale s c t p ≠ .error .paused ∧
      listCardForAuction s c t p d now ≠ .error .paused ∧
      buyCard s c t v ≠ .error .paused ∧
      placeBid s c t v now ≠ .error .paused ∧
      endAuction s c t now ≠ .error .paused ∧
      cancelListing s c t ≠ .error .paused ∧
      withdraw s c ok ≠ .error .paused) := by
  constructor
  · intro hpz
    refine ⟨by simp [listCardForSale, hpz], by simp [listCardForAuction, hpz],
      by simp [buyCard, hpz], by simp [placeBid, hpz],
      by simp [endAuction, hpz], by simp [cancelListing, hpz],
      by simp [withdraw, hpz], ?_, ?_, ?_, ?_, ?_, ?_, ?_⟩
    · show settle s (listCardForSale s c t p) = s
      rw [show listCardForSale s c t p = .error .paused by
        simp [listCardForSale, hpz]]
      rfl
    · show settle s (listCardForAuction s c t p d now) = s
      rw [show listCardForAuction s c t p d now = .error .paused by
        simp [listCardForAuction, hpz]]
      rfl
    · show settle s (buyCard s c t v) = s
      rw [show buyCard s c t v = .error .paused by simp [buyCard, hpz]]
      rfl
    · show settle s (placeBid s c t v now) = s
      rw [show placeBid s c t v now = .error .paused by simp [placeBid, hpz]]
      rfl
    · show settle s (endAuction s c t now) = s
      rw [show endAuction s c t now = .error .paused by
        simp [endAuction, hpz]]
      rfl
    · show settle s (cancelListing s c t) = s
      rw [show cancelListing s c t = .error .paused by
        simp [cancelListing, hpz]]
      rfl
    · show settle s (withdraw s c ok) = s
      rw [show withdraw s c ok = .error .paused by simp [withdraw, hpz]]
      rfl
  · intro hp
    exact ⟨listCardForSale_not_paused hp, listCardForAuction_not_paused hp,
      buyCard_not_paused hp, placeBid_not_paused hp,
      endAuction_not_paused hp, cancelListing_not_paused hp,
      withdraw_not_paused hp⟩

/-- When the engine holds the token in escrow, its own transfer to a nonzero
receiver succeeds. -/
lemma transferFrom_self {r : Registry} {toA t : Nat}
    (h : r.tokenOwner t = engineAddr) (hto : toA ≠ 0) :
    r.transferFrom engineAddr engineAddr toA t =
      .ok { r with tokenOwner := Function.update r.tokenOwner t toA,
                   tokenApproved := Function.update r.tokenApproved t 0 } := by
  unfold Registry.transferFrom
  rw [h]
  simp [engineAddr, hto]

/-- C4: `placeBid` succeeds exactly when the listing is active, an auction,
before its deadline, and the bid beats the standing highest bid and meets
the opening price; on success the previous highest bidder (when one exists)
is credited on the ledger — never paid directly — the listing records the
caller as highest bidder with the bid as highest bid, and a Bid record is
appended. -/
theorem placeBid_spec (s : TradingState) (c t v now : Nat)
    (hp : s.paused = false) :
    ((∃ s', placeBid s c t v now = .ok s') ↔
      ((s.listings t).active = true ∧
       (s.listings t).listingType = .AUCTION ∧
       now < (s.listings t).endTime ∧
       (s.listings t).highestBid < v ∧ (s.listings t).price ≤ v)) ∧
    (∀ s', placeBid s c t v now = .ok s' →
      (s'.listings t).highestBidder = c ∧
      (s'.listings t).highestBid = v ∧
      s'.listings t = rebid (s.listings t) c v ∧
      (∀ j, j ≠ t → s'.listings j = s.listings j) ∧
      (∀ x, s'.pendingWithdrawals x = s.pendingWithdrawals x +
        (if x = (s.listings t).highestBidder ∧
            (s.listings t).highestBidder ≠ 0
         then (s.listings t).highestBid else 0)) ∧
      s'.events = s.events ++ [.AuctionBid t v c] ∧
      s'.paidIn = s.paidIn + v ∧
      s'.paidOut = s.paidOut ∧ s'.reg = s.reg) := by
  constructor
  · constructor
    · rintro ⟨s', hs'⟩
      obtain ⟨-, hact, hk, htime, hlt, hle, -⟩ := placeBid_ok hs'
      exact ⟨hact, hk, htime, hlt, hle⟩
    · rintro ⟨hact, hk, htime, hlt, hle⟩
      have hok : placeBid s c t v now = .ok
          { s with
              listings := Function.update s.listings t
                (rebid (s.listings t) c v),
              pendingWithdrawals :=
                (if (s.listings t).highestBidder ≠ 0 then
                   credit s.pendingWithdrawals (s.listings t).highestBidder
                     (s.listings t).highestBid
                 else s.pendingWithdrawals),
              events := s.events ++ [.AuctionBid t v c],
              paidIn := s.paidIn + v } := by
        simp [placeBid, hp, hact, hk, htime, hlt, hle, rebid]
      exact ⟨_, hok⟩
  · intro s' hs'
    obtain ⟨-, hact, hk, htime, hlt, hle, hs⟩ := placeBid_ok hs'
    subst hs
    refine ⟨by simp [rebid], by simp [rebid], by simp, ?_, ?_, rfl, rfl, rfl, rfl⟩
    · intro j hj
      simp [Function.update_noteq hj]
    · intro x
      by_cases hb0 : (s.listings t).highestBidder = 0
      · simp [hb0]
      · simp [hb0, credit_apply]

/-- C5: on an active fixed-price listing with sufficient payment, `buyCard`
deactivates the listing, credits exactly the price to the seller's ledger
entry, credits the excess to the buyer's own ledger entry (no direct refund
transfer), moves custody from the engine to the buyer and appends a Sold
record; it rejects an inactive listing, a non-fixed-price listing, and an
insufficient payment. -/
theorem buyCard_spec (s : TradingState) (c t v : Nat)
    (hp : s.paused = false) :
    ((s.listings t).active = false → buyCard s c t v = .error .notActive) ∧
    ((s.listings t).active = true →
      (s.listings t).listingType ≠ .FIXED_PRICE →
      buyCard s c t v = .error .wrongKindFixed) ∧
    ((s.listings t).active = true →
      (s.listings t).listingType = .FIXED_PRICE →
      v < (s.listings t).price →
      buyCard s c t v = .error .insufficientPayment) ∧
    ((s.listings t).active = true →
      (s.listings t).listingType = .FIXED_PRICE →
      (s.listings t).price ≤ v →
      s.reg.tokenOwner t = engineAddr → c ≠ 0 →
      ∃ s', buyCard s c t v = .ok s' ∧
        (s'.listings t).active = false ∧
        (∀ j, j ≠ t → s'.listings j = s.listings j) ∧
        (∀ x, s'.pendingWithdrawals x = s.pendingWithdrawals x
          + (if x = (s.listings t).seller then (s.listings t).price else 0)
          + (if x = c then v - (s.listings t).price else 0)) ∧
        s'.reg.tokenOwner t = c ∧
        s'.events = s.events ++
          [.CardSold t (s.listings t).price (s.listings t).seller c] ∧
        s'.paidIn = s.paidIn + v ∧ s'.paidOut = s.paidOut) := by
  refine ⟨?_, ?_, ?_, ?_⟩
  · intro hact
    simp [buyCard, hp, hact]
  · intro hact hk
    simp [buyCard, hp, hact, hk]
  · intro hact hk hlt
    simp [buyCard, hp, hact, hk, hlt]
  · intro hact hk hge ho hc0
    have hnlt : ¬ v < (s.listings t).price := by omega
    have hok : buyCard s c t v = .ok
        { s with
            reg := { s.reg with
              tokenOwner := Function.update s.reg.tokenOwner t c,
              tokenApproved := Function.update s.reg.tokenApproved t 0 },
            listings := Function.update s.listings t
              (deactivate (s.listings t)),
            pendingWithdrawals :=
              (if (s.listings t).price < v then
                 credit (credit s.pendingWithdrawals (s.listings t).seller
                     (s.listings t).price)
                   c (v - (s.listings t).price)
               else
                 credit s.pendingWithdrawals (s.listings t).seller
                   (s.listings t).price),
            events := s.events ++
              [.CardSold t (s.listings t).price (s.listings t).seller c],
            paidIn := s.paidIn + v } := by
      simp [buyCard, hp, hact, hk, hnlt, transferFrom_self ho hc0, deactivate]
    refine ⟨_, hok, by simp [deactivate], ?_, ?_, by simp, rfl, rfl, rfl⟩
    · intro j hj
      simp [Function.update_noteq hj]
    · intro x
      by_cases hv : (s.listings t).price < v
      · simp [hv, credit_apply]
      · have hv0 : v - (s.listings t).price = 0 := by omega
        simp [hv, hv0, credit_apply]

/-- C6: `endAuction` on an active auction at or past its deadline
deactivates the listing; with a highest bidder it credits the highest bid
to the seller's ledger entry, moves custody from the engine to the winner
and appends an AuctionEnded record; with no bidder it returns custody to
the seller with no ledger credit and appends a ListingCancelled record;
calls before the deadline, on a non-auction, or on an inactive listing are
rejected. -/
theorem endAuction_spec (s : TradingState) (c t now : Nat)
    (hp : s.paused = false) :
    ((s.listings t).active = false →
      endAuction s c t now = .error .notActive) ∧
    ((s.listings t).active = true →
      (s.listings t).listingType ≠ .AUCTION →
      endAuction s c t now = .error .wrongKindAuction) ∧
    ((s.listings t).active = true →
      (s.listings t).listingType = .AUCTION →
      now < (s.listings t).endTime →
      endAuction s c t now = .error .auctionNotEnded ∧
      applyAct s (.endAuc c t now) = s) ∧
    ((s.listings t).active = true →
      (s.listings t).listingType = .AUCTION →
      (s.listings t).endTime ≤ now →
      (s.listings t).highestBidder ≠ 0 →
      s.reg.tokenOwner t = engineAddr →
      ∃ s', endAuction s c t now = .ok s' ∧
        (s'.listings t).active = false ∧
        (∀ x, s'.pendingWithdrawals x = s.pendingWithdrawals x
          + (if x = (s.listings t).seller then (s.listings t).highestBid
             else 0)) ∧
        s'.reg.tokenOwner t = (s.listings t).highestBidder ∧
        s'.events = s.events ++
          [.AuctionEnded t (s.listings t).highestBid (s.listings t).seller
            (s.listings t).highestBidder] ∧
        s'.paidIn = s.paidIn ∧ s'.paidOut = s.paidOut) ∧
    ((s.listings t).active = true →
      (s.listings t).listingType = .AUCTION →
      (s.listings t).endTime ≤ now →
      (s.listings t).highestBidder = 0 →
      s.reg.tokenOwner t = engineAddr → (s.listings t).seller ≠ 0 →
      ∃ s', endAuction s c t now = .ok s' ∧
        (s'.listings t).active = false ∧
        s'.pendingWithdrawals = s.pendingWithdrawals ∧
        s'.reg.tokenOwner t = (s.listings t).seller ∧
        s'.events = s.events ++
          [.CardListingCancelled t (s.listings t).seller] ∧
        s'.paidIn = s.paidIn ∧ s'.paidOut = s.paidOut) := by
  refine ⟨?_, ?_, ?_, ?_, ?_⟩
  · intro hact
    simp [endAuction, hp, hact]
  · intro hact hk
    simp [endAuction, hp, hact, hk]
  · intro hact hk htime
    have he : endAuction s c t now = .error .auctionNotEnded := by
      simp [endAuction, hp, hact, hk, htime]
    refine ⟨he, ?_⟩
    show settle s (endAuction s c t now) = s
    rw [he]
    rfl
  · intro hact hk htime hw ho
    have hnt : ¬ now < (s.listings t).endTime := by omega
    have hok : endAuction s c t now = .ok
        { s with
            reg := { s.reg with
              tokenOwner := Function.update s.reg.tokenOwner t
                (s.listings t).highestBidder,
              tokenApproved := Function.update s.reg.tokenApproved t 0 },
            listings := Function.update s.listings t
              (deactivate (s.listings t)),
            pendingWithdrawals :=
              credit s.pendingWithdrawals (s.listings t).seller
                (s.listings t).highestBid,
            events := s.events ++
              [.AuctionEnded t (s.listings t).highestBid
                (s.listings t).seller (s.listings t).highestBidder] } := by
      simp [endAuction, hp, hact, hk, hnt, hw, transferFrom_self ho hw,
        deactivate]
    refine ⟨_, hok, by simp [deactivate], ?_, by simp, rfl, rfl, rfl⟩
    intro x
    simp [credit_apply]
  · intro hact hk htime hw ho hsell
    have hnt : ¬ now < (s.listings t).endTime := by omega
    have hok : endAuction s c t now = .ok
        { s with
            reg := { s.reg with
              tokenOwner := Function.update s.reg.tokenOwner t
                (s.listings t).seller,
              tokenApproved := Function.update s.reg.tokenApproved t 0 },
            listings := Function.update s.listings t
              (deactivate (s.listings t)),
            events := s.events ++
              [.CardListingCancelled t (s.listings t).seller] } := by
      simp [endAuction, hp, hact, hk, hnt, hw, transferFrom_self ho hsell,
        deactivate]
    exact ⟨_, hok, by simp [deactivate], rfl, by simp, rfl, rfl, rfl⟩

/-- C7: `cancelListing` succeeds exactly when the listing is active, the
caller is the seller, and an auction has no standing bid; on success the
listing is deactivated and custody returns to the seller; on each rejection
the state is unchanged, so the listing stays active (when it was) and the
item stays in the engine's escrow. -/
theorem cancelListing_spec (s : TradingState) (c t : Nat)
    (hp : s.paused = false) (ho : s.reg.tokenOwner t = engineAddr)
    (hc0 : c ≠ 0) :
    ((∃ s', cancelListing s c t = .ok s') ↔
      ((s.listings t).active = true ∧ (s.listings t).seller = c ∧
       ((s.listings t).listingType = .AUCTION →
         (s.listings t).highestBidder = 0))) ∧
    (∀ s', cancelListing s c t = .ok s' →
      (s'.listings t).active = false ∧
      (∀ j, j ≠ t → s'.listings j = s.listings j) ∧
      s'.reg.tokenOwner t = c ∧
      s'.pendingWithdrawals = s.pendingWithdrawals ∧
      s'.events = s.events ++ [.CardListingCancelled t c]) ∧
    ((s.listings t).active = false →
      cancelListing s c t = .error .notActive ∧
      applyAct s (.cancel c t) = s) ∧
    ((s.listings t).active = true → (s.listings t).seller ≠ c →
      cancelListing s c t = .error .notSeller ∧
      applyAct s (.cancel c t) = s ∧
      ((applyAct s (.cancel c t)).listings t).active = true ∧
      (applyAct s (.cancel c t)).reg.tokenOwner t = engineAddr) ∧
    ((s.listings t).active = true → (s.listings t).seller = c →
      (s.listings t).listingType = .AUCTION →
      (s.listings t).highestBidder ≠ 0 →
      cancelListing s c t = .error .auctionHasBids ∧
      applyAct s (.cancel c t) = s ∧
      ((applyAct s (.cancel c t)).listings t).active = true ∧
      (applyAct s (.cancel c t)).reg.tokenOwner t = engineAddr) := by
  refine ⟨⟨?_, ?_⟩, ?_, ?_, ?_, ?_⟩
  · rintro ⟨s', hs'⟩
    obtain ⟨-, hact, hsell, hnb, -⟩ := cancelListing_ok hs'
    refine ⟨hact, hsell, fun hk => ?_⟩
    by_contra hb
    exact hnb ⟨hk, hb⟩
  · rintro ⟨hact, hsell, hnb⟩
    have hnb' : ¬((s.listings t).listingType = ListingType.AUCTION ∧
        (s.listings t).highestBidder ≠ 0) := by
      rintro ⟨hk, hb⟩
      exact hb (hnb hk)
    have hok : cancelListing s c t = .ok
        { s with
            reg := { s.reg with
              tokenOwner := Function.update s.reg.tokenOwner t c,
              tokenApproved := Function.update s.reg.tokenApproved t 0 },
            listings := Function.update s.listings t
              (deactivate (s.listings t)),
            events := s.events ++ [.CardListingCancelled t c] } := by
      simp [cancelListing, hp, hact, hsell, hnb', transferFrom_self ho hc0,
        deactivate]
    exact ⟨_, hok⟩
  · intro s' hs'
    obtain ⟨-, hact, hsell, hnb, r, htf, hs⟩ := cancelListing_ok hs'
    subst hs
    have htf' := htf
    rw [transferFrom_self ho hc0] at htf'
    have hr : r = { s.reg with
        tokenOwner := Function.update s.reg.tokenOwner t c,
        tokenApproved := Function.update s.reg.tokenApproved t 0 } :=
      (Except.ok.inj htf').symm
    subst hr
    refine ⟨by simp [deactivate], ?_, by simp, rfl, rfl⟩
    intro j hj
    simp [Function.update_noteq hj]
  · intro hact
    have he : cancelListing s c t = .error .notActive := by
      simp [cancelListing, hp, hact]
    refine ⟨he, ?_⟩
    show settle s (cancelListing s c t) = s
    rw [he]
    rfl
  · intro hact hsell
    have he : cancelListing s c t = .error .notSeller := by
      simp [cancelListing, hp, hact, hsell]
    have hid : applyAct s (.cancel c t) = s := by
      show settle s (cancelListing s c t) = s
      rw [he]
      rfl
    rw [hid]
    exact ⟨he, rfl, hact, ho⟩
  · intro hact hsell hk hb
    have he : cancelListing s c t = .error .auctionHasBids := by
      simp [cancelListing, hp, hact, hsell, hk, hb]
    have hid : applyAct s (.cancel c t) = s := by
      show settle s (cancelListing s c t) = s
      rw [he]
      rfl
    rw [hid]
    exact ⟨he, rfl, hact, ho⟩

/-- How one call can change the stored listing of an item `i`: leave it
unchanged, clear its active flag, record a strictly higher bid, or (only
for a list call on `i` over an inactive slot) install a fresh listing with
zero highest bid. -/
lemma listings_step (s : TradingState) (a : Act) (i : Nat) :
    (applyAct s a).listings i = s.listings i ∨
    (applyAct s a).listings i = deactivate (s.listings i) ∨
    (∃ c v, (applyAct s a).listings i = rebid (s.listings i) c v ∧
      (s.listings i).highestBid < v ∧ (s.listings i).price ≤ v ∧
      (s.listings i).active = true) ∨
    (a.listsFor i = true ∧ (s.listings i).active = false ∧
      ((applyAct s a).listings i).active = true ∧
      ((applyAct s a).listings i).highestBid = 0) := by
  cases a with
  | mint c toA =>
    rw [show applyAct s (Act.mint c toA) = settleReg s (s.reg.mint c toA)
      from rfl]
    cases s.reg.mint c toA with
    | error e => exact Or.inl rfl
    | ok r => exact Or.inl rfl
  | approve c toA t =>
    rw [show applyAct s (Act.approve c toA t)
      = settleReg s (s.reg.approve c toA t) from rfl]
    cases s.reg.approve c toA t with
    | error e => exact Or.inl rfl
    | ok r => exact Or.inl rfl
  | approveAll c o ap =>
    rw [show applyAct s (Act.approveAll c o ap)
      = settleReg s (s.reg.setApprovalForAll c o ap) from rfl]
    cases s.reg.setApprovalForAll c o ap with
    | error e => exact Or.inl rfl
    | ok r => exact Or.inl rfl
  | listSale c t p =>
    rw [show applyAct s (Act.listSale c t p)
      = settle s (listCardForSale s c t p) from rfl]
    cases hres : listCardForSale s c t p with
    | error e => exact Or.inl rfl
    | ok s' =>
      obtain ⟨-, -, -, -, hact, r, htf, hs⟩ := listCardForSale_ok hres
      subst hs
      by_cases hit : i = t
      · subst hit
        refine Or.inr (Or.inr (Or.inr ⟨?_, hact, ?_, ?_⟩))
        · simp [Act.listsFor]
        · simp [settle, newSaleListing]
        · simp [settle, newSaleListing]
      · exact Or.inl (by simp [settle, Function.update_noteq hit])
  | listAuc c t p d now =>
    rw [show applyAct s (Act.listAuc c t p d now)
      = settle s (listCardForAuction s c t p d now) from rfl]
    cases hres : listCardForAuction s c t p d now with
    | error e => exact Or.inl rfl
    | ok s' =>
      obtain ⟨-, -, -, -, -, hact, r, htf, hs⟩ := listCardForAuction_ok hres
      subst hs
      by_cases hit : i = t
      · subst hit
        refine Or.inr (Or.inr (Or.inr ⟨?_, hact, ?_, ?_⟩))
        · simp [Act.listsFor]
        · simp [settle, newAucListing]
        · simp [settle, newAucListing]
      · exact Or.inl (by simp [settle, Function.update_noteq hit])
  | buy c t v =>
    rw [show applyAct s (Act.buy c t v) = settle s (buyCard s c t v)
      from rfl]
    cases hres : buyCard s c t v with
    | error e => exact Or.inl rfl
    | ok s' =>
      obtain ⟨-, -, -, -, r, htf, hs⟩ := buyCard_ok hres
      subst hs
      by_cases hit : i = t
      · subst hit
        exact Or.inr (Or.inl (by simp [settle]))
      · exact Or.inl (by simp [settle, Function.update_noteq hit])
  | bid c t v now =>
    rw [show applyAct s (Act.bid c t v now)
      = settle s (placeBid s c t v now) from rfl]
    cases hres : placeBid s c t v now with
    | error e => exact Or.inl rfl
    | ok s' =>
      obtain ⟨-, hact, -, -, hlt, hle, hs⟩ := placeBid_ok hres
      subst hs
      by_cases hit : i = t
      · subst hit
        exact Or.inr (Or.inr (Or.inl ⟨c, v, by simp [settle], hlt, hle, hact⟩))
      · exact Or.inl (by simp [settle, Function.update_noteq hit])
  | endAuc c t now =>
    rw [show applyAct s (Act.endAuc c t now)
      = settle s (endAuction s c t now) from rfl]
    cases hres : endAuction s c t now with
    | error e => exact Or.inl rfl
    | ok s' =>
      obtain ⟨-, -, -, -, hbr⟩ := endAuction_ok hres
      by_cases hit : i = t
      · subst hit
        rcases hbr with ⟨-, r, htf, hs⟩ | ⟨-, r, htf, hs⟩ <;> subst hs <;>
          exact Or.inr (Or.inl (by simp [settle]))
      · rcases hbr with ⟨-, r, htf, hs⟩ | ⟨-, r, htf, hs⟩ <;> subst hs <;>
          exact Or.inl (by simp [settle, Function.update_noteq hit])
  | cancel c t =>
    rw [show applyAct s (Act.cancel c t) = settle s (cancelListing s c t)
      from rfl]
    cases hres : cancelListing s c t with
    | error e => exact Or.inl rfl
    | ok s' =>
      obtain ⟨-, -, -, -, r, htf, hs⟩ := cancelListing_ok hres
      subst hs
      by_cases hit : i = t
      · subst hit
        exact Or.inr (Or.inl (by simp [settle]))
      · exact Or.inl (by simp [settle, Function.update_noteq hit])
  | wdraw c ok =>
    rw [show applyAct s (Act.wdraw c ok) = settle s (withdraw s c ok)
      from rfl]
    cases hres : withdraw s c ok with
    | error e => exact Or.inl rfl
    | ok s' =>
      obtain ⟨-, -, -, hs⟩ := withdraw_ok hres
      subst hs
      exact Or.inl rfl
  | pauseAct c =>
    rw [show applyAct s (Act.pauseAct c) = settle s (pause s c) from rfl]
    cases hres : pause s c with
    | error e => exact Or.inl rfl
    | ok s' =>
      obtain ⟨-, -, hs⟩ := pause_ok hres
      subst hs
      exact Or.inl rfl
  | unpauseAct c =>
    rw [show applyAct s (Act.unpauseAct c) = settle s (unpause s c)
      from rfl]
    cases hres : unpause s c with
    | error e => exact Or.inl rfl
    | ok s' =>
      obtain ⟨-, -, hs⟩ := unpause_ok hres
      subst hs
      exact Or.inl rfl

/-- C8: for any listing slot, no call other than a fresh list call ever
lowers the stored highest bid; an accepted bid is strictly above the
previous highest bid and at least the opening price and becomes the new
highest bid with the price unchanged; and in every reachable state a
nonzero highest bid is at least the opening price. -/
theorem bid_monotonicity :
    (∀ (s : TradingState) (a : Act) (i : Nat), a.listsFor i = false →
      (s.listings i).highestBid ≤ ((applyAct s a).listings i).highestBid) ∧
    (∀ (s : TradingState) (c t v now : Nat) (s' : TradingState),
      placeBid s c t v now = .ok s' →
      (s.listings t).highestBid < v ∧ (s.listings t).price ≤ v ∧
      (s'.listings t).highestBid = v ∧
      (s'.listings t).price = (s.listings t).price) ∧
    (∀ (ta ow : Nat) (as : List Act) (i : Nat),
      ((execTrace (init ta ow) as).listings i).highestBid ≠ 0 →
      ((execTrace (init ta ow) as).listings i).price
        ≤ ((execTrace (init ta ow) as).listings i).highestBid) := by
  refine ⟨?_, ?_, ?_⟩
  · intro s a i hlf
    rcases listings_step s a i with h | h | ⟨c, v, h, hlt, -, -⟩ | ⟨hls, -⟩
    · rw [h]
    · rw [h]
      simp [deactivate]
    · rw [h]
      simp only [rebid]
      omega
    · rw [hlf] at hls
      exact Bool.noConfusion hls
  · intro s c t v now s' hs'
    obtain ⟨-, -, -, -, hlt, hle, hs⟩ := placeBid_ok hs'
    subst hs
    exact ⟨hlt, hle, by simp [rebid], by simp [rebid]⟩
  · intro ta ow as
    have key : ∀ (s : TradingState) (a : Act),
        (∀ i, (s.listings i).highestBid ≠ 0 →
          (s.listings i).price ≤ (s.listings i).highestBid) →
        (∀ i, ((applyAct s a).listings i).highestBid ≠ 0 →
          ((applyAct s a).listings i).price
            ≤ ((applyAct s a).listings i).highestBid) := by
      intro s a hP i hbid
      rcases listings_step s a i with h | h | ⟨c, v, h, hlt, hle, -⟩ |
        ⟨-, -, -, hb0⟩
      · rw [h] at hbid ⊢
        exact hP i hbid
      · rw [h] at hbid ⊢
        simp only [deactivate] at hbid ⊢
        exact hP i hbid
      · rw [h]
        simp only [rebid]
        exact hle
      · exact absurd hb0 hbid
    have htr : ∀ (as : List Act) (s : TradingState),
        (∀ i, (s.listings i).highestBid ≠ 0 →
          (s.listings i).price ≤ (s.listings i).highestBid) →
        (∀ i, ((execTrace s as).listings i).highestBid ≠ 0 →
          ((execTrace s as).listings i).price
            ≤ ((execTrace s as).listings i).highestBid) := by
      intro as
      induction as with
      | nil => exact fun s hs => hs
      | cons a as ih => exact fun s hs => ih _ (key s a hs)
    exact htr as (init ta ow) (fun i h => absurd rfl h)

/-- C9: a listing's active flag never goes from false to true except by a
fresh list-for-sale or list-for-auction call on that item: no buy, bid,
settlement, cancellation, withdrawal or admin call resurrects a
deactivated listing. -/
theorem no_resurrection (s : TradingState) (a : Act) (i : Nat)
    (hfalse : (s.listings i).active = false)
    (htrue : ((applyAct s a).listings i).active = true) :
    a.listsFor i = true := by
  rcases listings_step s a i with h | h | ⟨c, v, h, -, -, hact⟩ | ⟨hls, -⟩
  · rw [h] at htrue
    rw [hfalse] at htrue
    exact Bool.noConfusion htrue
  · rw [h] at htrue
    simp only [deactivate] at htrue
    exact Bool.noConfusion htrue
  · rw [hfalse] at hact
    exact Bool.noConfusion hact
  · exact hls

/-- An item that no call in the trace ever lists keeps the default (empty,
inactive) listing record. -/
lemma neverListed_empty {i : Nat} (as : List Act) :
    ∀ s : TradingState, (∀ a ∈ as, a.listsFor i = false) →
    s.listings i = emptyListing →
    (execTrace s as).listings i = emptyListing := by
  induction as with
  | nil => exact fun s _ h0 => h0
  | cons a as ih =>
    intro s hl h0
    refine ih _ (fun x hx => hl x (List.mem_cons_of_mem _ hx)) ?_
    have ha := hl a (List.mem_cons_self a as)
    rcases listings_step s a i with h | h | ⟨c, v, h, -, -, hact⟩ | ⟨hls, -⟩
    · rw [h, h0]
    · rw [h, h0]
      rfl
    · rw [h0] at hact
      exact absurd hact (by simp [emptyListing])
    · rw [ha] at hls
      exact Bool.noConfusion hls

/-- C10: for an item no call ever listed, the stored listing is the default
inactive record, so buy, place-bid, end-auction and cancel-listing are all
rejected with the same `Listing is not active` error as for any
deactivated listing, with no state change; the interface does not
distinguish a nonexistent listing from an inactive one. -/
theorem nonexistent_listing_spec (ta ow : Nat) (as : List Act) (i : Nat)
    (h : ∀ a ∈ as, a.listsFor i = false) :
    (execTrace (init ta ow) as).listings i = emptyListing ∧
    (∀ s : TradingState, s.paused = false → (s.listings i).active = false →
      ∀ c v now : Nat,
        buyCard s c i v = .error .notActive ∧
        placeBid s c i v now = .error .notActive ∧
        endAuction s c i now = .error .notActive ∧
        cancelListing s c i = .error .notActive ∧
        applyAct s (.buy c i v) = s ∧
        applyAct s (.bid c i v now) = s ∧
        applyAct s (.endAuc c i now) = s ∧
        applyAct s (.cancel c i) = s) ∧
    Err.message .notActive = "Listing is not active" := by
  refine ⟨neverListed_empty as (init ta ow) h rfl, ?_, rfl⟩
  intro s hp hin c v now
  have h1 : buyCard s c i v = .error .notActive := by simp [buyCard, hp, hin]
  have h2 : placeBid s c i v now = .error .notActive := by
    simp [placeBid, hp, hin]
  have h3 : endAuction s c i now = .error .notActive := by
    simp [endAuction, hp, hin]
  have h4 : cancelListing s c i = .error .notActive := by
    simp [cancelListing, hp, hin]
  refine ⟨h1, h2, h3, h4, ?_, ?_, ?_, ?_⟩
  · show settle s (buyCard s c i v) = s
    rw [h1]
    rfl
  · show settle s (placeBid s c i v now) = s
    rw [h2]
    rfl
  · show settle s (endAuction s c i now) = s
    rw [h3]
    rfl
  · show settle s (cancelListing s c i) = s
    rw [h4]
    rfl

/-- Witness for C1: concrete state where principal 5 holds 100. -/
theorem withdraw_spec_witness :
    wLedgerState.paused = false ∧
    wLedgerState.pendingWithdrawals 5 ≠ 0 ∧
    (withdrawTransferState wLedgerState 5).pendingWithdrawals 5 = 0 ∧
    withdraw wLedgerState 5 false = .error .transferFailed :=
  ⟨rfl, by decide,
    ((withdraw_spec wLedgerState 5 rfl).2 (by decide)).1,
    ((withdraw_spec wLedgerState 5 rfl).2 (by decide)).2.2.1⟩

/-- Witness for C2: the concrete trace conserves value. -/
theorem value_conservation_witness :
    (∀ a ∈ wTrace, ActOk a ∧ a.below 10 5) ∧
    ledgerSum (execTrace (init 2 3) wTrace).pendingWithdrawals 10
      + escrowSum (execTrace (init 2 3) wTrace).listings 5
      = (execTrace (init 2 3) wTrace).paidIn
        - (execTrace (init 2 3) wTrace).paidOut :=
  ⟨by decide, (value_conservation 2 3 wTrace 10 5 (by decide)).1⟩

/-- Witness for C3: a concrete paused state rejects buy, bid and withdraw
with the gate error. -/
theorem pause_gate_witness :
    wPausedState.paused = true ∧
    buyCard wPausedState 5 0 150 = .error .paused ∧
    withdraw wPausedState 5 true = .error .paused ∧
    placeBid wPausedState 7 0 60 5 = .error .paused :=
  ⟨rfl,
   ((pause_gate_spec wPausedState 5 0 100 1 150 5 true).1 rfl).2.2.1,
   ((pause_gate_spec wPausedState 5 0 100 1 150 5 true).1 rfl).2.2.2.2.2.2.1,
   ((pause_gate_spec wPausedState 7 0 100 1 60 5 true).1 rfl).2.2.2.1⟩

/-- Witness for C4: a concrete valid bid is accepted. -/
theorem placeBid_spec_witness :
    wAucState.paused = false ∧
    (∃ s', placeBid wAucState 7 0 60 5 = .ok s') :=
  ⟨rfl, ((placeBid_spec wAucState 7 0 60 5 rfl).1).mpr (by decide)⟩

/-- Witness for C5: a concrete purchase with change succeeds, deactivates
the listing and moves custody to the buyer. -/
theorem buyCard_spec_witness :
    wSaleState.paused = false ∧
    ∃ s', buyCard wSaleState 5 0 150 = .ok s' ∧
      (s'.listings 0).active = false ∧ s'.reg.tokenOwner 0 = 5 := by
  refine ⟨rfl, ?_⟩
  obtain ⟨s', hok, hinact, -, -, howner, -, -, -⟩ :=
    (buyCard_spec wSaleState 5 0 150 rfl).2.2.2 (by decide) (by decide)
      (by decide) (by decide) (by decide)
  exact ⟨s', hok, hinact, howner⟩

/-- Witness for C6: a concrete auction with a bid settles to the winner. -/
theorem endAuction_spec_witness :
    wAucBidState.paused = false ∧
    ∃ s', endAuction wAucBidState 9 0 20 = .ok s' ∧
      (s'.listings 0).active = false ∧ s'.reg.tokenOwner 0 = 7 := by
  refine ⟨rfl, ?_⟩
  obtain ⟨s', hok, hinact, -, howner, -, -, -⟩ :=
    (endAuction_spec wAucBidState 9 0 20 rfl).2.2.2.1 (by decide) (by decide)
      (by decide) (by decide) (by decide)
  exact ⟨s', hok, hinact, howner.trans (by decide)⟩

/-- Witness for C7: the seller can cancel the concrete fixed-price
listing. -/
theorem cancelListing_spec_witness :
    wSaleState.paused = false ∧ wSaleState.reg.tokenOwner 0 = engineAddr ∧
    (4 : Nat) ≠ 0 ∧
    ∃ s', cancelListing wSaleState 4 0 = .ok s' :=
  ⟨rfl, by decide, by decide,
    ((cancelListing_spec wSaleState 4 0 rfl (by decide) (by decide)).1).mpr
      (by decide)⟩

/-- Witness for C8: a withdrawal does not lower a stored highest bid, and
the final auction state of the concrete trace has its highest bid at least
the opening price. -/
theorem bid_monotonicity_witness :
    Act.listsFor (Act.wdraw 4 true) 0 = false ∧
    (wAucBidState.listings 0).highestBid
      ≤ ((applyAct wAucBidState (Act.wdraw 4 true)).listings 0).highestBid ∧
    ((execTrace (init 2 3) wTrace).listings 1).highestBid ≠ 0 ∧
    ((execTrace (init 2 3) wTrace).listings 1).price
      ≤ ((execTrace (init 2 3) wTrace).listings 1).highestBid :=
  ⟨by decide,
   bid_monotonicity.1 wAucBidState (Act.wdraw 4 true) 0 (by decide),
   by decide,
   bid_monotonicity.2.2 2 3 wTrace 1 (by decide)⟩

/-- Witness for C9: installing a fresh listing is the only way the concrete
empty slot becomes active. -/
theorem no_resurrection_witness :
    (wListReady.listings 0).active = false ∧
    ((applyAct wListReady (Act.listSale 4 0 100)).listings 0).active = true ∧
    Act.listsFor (Act.listSale 4 0 100) 0 = true :=
  ⟨rfl, by decide,
    no_resurrection wListReady (Act.listSale 4 0 100) 0 rfl (by decide)⟩

/-- Witness for C10: item 2 is never listed by the concrete trace, reads as
the empty listing, and buying it is rejected as not active. -/
theorem nonexistent_listing_witness :
    (∀ a ∈ wTrace, Act.listsFor a 2 = false) ∧
    (execTrace (init 2 3) wTrace).listings 2 = emptyListing ∧
    buyCard (execTrace (init 2 3) wTrace) 5 2 100 = .error .notActive := by
  have h := nonexistent_listing_spec 2 3 wTrace 2 (by decide)
  refine ⟨by decide, h.1, ?_⟩
  exact (h.2.1 (execTrace (init 2 3) wTrace) (by decide)
    (by rw [h.1]; rfl) 5 100 0).1

end PokemonTrading
